import Mathlib

/-!
# Verification of the walk-forward predictive trading pipeline

A shallow embedding, in Lean 4, of the core functions of the
`microandlargecap` repository, together with proofs and refutations of the
frozen specification claims C1-C10.

Conventions of the embedding:
* Python floats are modelled by exact rationals (`ℚ`).  Decimal literals
  such as `0.04` denote the exact rational the source writes.
* Dates are integers (days); "+ 1 calendar day" is `+ 1`.
* A pandas `NaN` cell is `Option.none`; `dropna` keeps the rows where the
  relevant fields are `some`.
* External collaborators (the fitted XGBoost classifier, the news-sentiment
  provider, the network data sources, the on-disk cache and the clock) are
  parameters of the embedded functions: the embedding is faithful to how
  the repository's own code consumes their results.
* `pandas.sort_values` on a single key with `ascending=False` argsorts the
  key ascending and reverses the indexer; numpy's argsort is deterministic
  and coincides with a stable sort on the small partitions arising in this
  development, so the ascending argsort is modelled by a stable sort
  (`List.insertionSort`) followed by `List.reverse`.  The multi-key
  `sort_values` of `src/plan.py` goes through numpy's stable `lexsort` and
  is modelled by a stable lexicographic sort without reversal.
* `pandas.Series.round` rounds half to even; `roundTo` below implements
  exactly that on `ℚ`.
-/

/-- Sum of a list of rationals. -/
def sumQ (l : List ℚ) : ℚ := l.sum

/-- Arithmetic mean, as `pandas` computes it for a complete window. -/
def meanQ (l : List ℚ) : ℚ := sumQ l / l.length

/-- Sample variance with `ddof = 1` (the default of `pandas.Series.std`,
squared).  The source's rolling `std` is the square root of this value; the
two are `NaN` on exactly the same windows, and no claim in this development
depends on the numeric value of a standard deviation. -/
def sampleVarQ (l : List ℚ) : ℚ :=
  (l.map (fun x => (x - meanQ l) ^ 2)).sum / ((l.length : ℚ) - 1)

/-- Round half to even at integer precision (the rounding used by
`numpy.round` / `pandas.Series.round`). -/
def roundHalfEven (x : ℚ) : ℤ :=
  let f := ⌊x⌋
  let frac := x - f
  if frac < 1/2 then f
  else if 1/2 < frac then f + 1
  else if f % 2 = 0 then f else f + 1

/-- `Series.round(d)`: round half to even at `d` decimal places. -/
def roundTo (d : ℕ) (x : ℚ) : ℚ := (roundHalfEven (x * 10 ^ d) : ℚ) / 10 ^ d

/-- `pandas.Series.median` of the non-`NaN` values: `none` on an empty (or
all-`NaN`) series, otherwise the middle element of the sorted values, or the
mean of the two middle elements for an even count. -/
def medianQ (l : List ℚ) : Option ℚ :=
  let s := List.insertionSort (· ≤ ·) l
  let n := l.length
  if n = 0 then none
  else if n % 2 = 1 then s.get? (n / 2)
  else
    match s.get? (n / 2 - 1), s.get? (n / 2) with
    | some a, some b => some ((a + b) / 2)
    | _, _ => none

/-- Model of `DataFrame.sort_values(key, ascending=False)` on one numeric
key: pandas argsorts the key ascending (`nargsort`) and reverses the
resulting indexer.  The ascending argsort is modelled as a stable sort. -/
def pandasSortDesc {α : Type} (key : α → ℚ) (xs : List α) : List α :=
  (List.insertionSort (fun a b => key a ≤ key b) xs).reverse

/-- The comes-before relation of a two-key descending `sort_values`
(`src/plan.py` line 72): primary key descending, secondary key descending,
ties keeping the original row order (numpy `lexsort` is stable). -/
def lexDescLE {α : Type} (k1 k2 : α → ℚ) (a b : α) : Prop :=
  k1 b < k1 a ∨ (k1 a = k1 b ∧ k2 b ≤ k2 a)

instance {α : Type} (k1 k2 : α → ℚ) : DecidableRel (lexDescLE k1 k2) := by
  intro a b
  unfold lexDescLE
  infer_instance

/-- Model of `DataFrame.sort_values([key1, key2], ascending=False)`:
a stable sort under `lexDescLE`. -/
def pandasSortDesc2 {α : Type} (k1 k2 : α → ℚ) (xs : List α) : List α :=
  List.insertionSort (lexDescLE k1 k2) xs

/-! ## Data model

`Row` is one engineered feature row as consumed by the model/backtest/plan
layers (`ticker`, `date`, `close`, and the `std20` column that the plan
generator reads; the remaining feature columns only ever flow into the
abstract classifier and are absorbed into the abstract scoring
functions). -/

structure Row where
  ticker : String
  date : ℤ
  close : ℚ
  std20 : Option ℚ
deriving DecidableEq, Repr

/-! ## `src/plan.py` — PlanGenerator -/

namespace Plan

/-- `_clamp01` of `src/plan.py` (the float-coercion fallback of the source
only fires on non-numeric input, which the embedding's `ℚ` arguments
exclude): clamp to `[-1, 1]`. -/
def clamp01 (v : ℚ) : ℚ := max (-1) (min 1 v)

/-- `edge = (prob - 0.5) / 0.5` (`src/plan.py` line 68). -/
def edge (p : ℚ) : ℚ := (p - 0.5) / 0.5

/-- `Score = (1 - sent_w) * edge + sent_w * sentiment` (`src/plan.py`
line 70). -/
def blendedScore (sent_w p s : ℚ) : ℚ := (1 - sent_w) * edge p + sent_w * s

/-- One scored candidate row: the feature row with its model probability,
clamped sentiment and blended score. -/
structure Scored where
  row : Row
  prob : ℚ
  sent : ℚ
  score : ℚ
deriving DecidableEq, Repr

/-- One line of the emitted trade plan (the columns of
`trade_plan_<date>.csv`). -/
structure PlanRow where
  ticker : String
  close : ℚ
  score : ℚ
  prob : ℚ
  sent : ℚ
  buyPrice : ℚ
  stop : ℚ
  target1 : ℚ
  target2 : ℚ
  qty : ℤ
  capital : ℚ
deriving DecidableEq, Repr

/-- `data["date"].max()`. -/
def maxDate (data : List Row) : ℤ := ((data.map (·.date)).max?).getD 0

/-- The block at the last day, scored: model probability per row, sentiment
from the cached map (clamped) or the live fetch, both clamped again, and
the blended score (`src/plan.py` lines 50-70).  `predict` is the fitted
classifier, `sentMap` the cached sentiment CSV, `liveSent` the live
`get_news_sentiment` collaborator. -/
def scoredBlock (predict : Row → ℚ) (sentMap : String → Option ℚ)
    (liveSent : String → ℚ) (sent_w : ℚ) (data : List Row) : List Scored :=
  (data.filter (fun r => r.date = maxDate data)).map (fun r =>
    let p := predict r
    let s := clamp01 (match sentMap r.ticker with
      | some v => clamp01 v
      | none => liveSent r.ticker)
    ⟨r, p, s, blendedScore sent_w p s⟩)

/-- The ranked top-`topN` block (`src/plan.py` line 72):
`sort_values(["Score","MLProb"], ascending=False).head(topN)`. -/
def picksOf (predict : Row → ℚ) (sentMap : String → Option ℚ)
    (liveSent : String → ℚ) (sent_w : ℚ) (data : List Row) (topN : ℕ) :
    List Scored :=
  (pandasSortDesc2 (·.score) (·.prob)
    (scoredBlock predict sentMap liveSent sent_w data)).take topN

/-- Risk bounds and sizing for one selected row (`src/plan.py`
lines 75-91): `vol_k = 1 + (std20.fillna(median).clip(lower=0) /
(close + 1e-9)).fillna(0)`, capped stop/target percentages, prices rounded
to 4 decimals, equal-capital quantity `max(1, floor(per_trade/close))` and
committed capital rounded to 2 decimals. -/
def planRowOf (medianStd : Option ℚ) (perTrade : ℚ) (s : Scored) : PlanRow :=
  let r := s.row
  let fill : Option ℚ :=
    match r.std20 with
    | some v => some v
    | none => medianStd
  let vratio : ℚ :=
    match fill with
    | some v => max 0 v / (r.close + 1e-9)
    | none => 0
  let volK := 1 + vratio
  let stopPct := min (0.04 * volK) 0.072
  let tp1Pct := min (0.03 * volK) 0.048
  let tp2Pct := min (0.06 * volK) 0.12
  { ticker := r.ticker
    close := r.close
    score := s.score
    prob := s.prob
    sent := s.sent
    buyPrice := r.close
    stop := roundTo 4 (r.close * (1 - stopPct))
    target1 := roundTo 4 (r.close * (1 + tp1Pct))
    target2 := roundTo 4 (r.close * (1 + tp2Pct))
    qty := max 1 ⌊perTrade / r.close⌋
    capital := roundTo 2 (((max 1 ⌊perTrade / r.close⌋ : ℤ) : ℚ) * r.close) }

/-- `generate_trade_plan` of `src/plan.py`: raises on an empty dataset or
an empty last-day block, otherwise scores the last-day block, ranks it,
takes the top `topN`, and sizes each position with
`per_trade = capital / max(1, topN)`.  The two `ValueError`s of the source
are the `Except.error` branches. -/
def generate_trade_plan (predict : Row → ℚ) (sentMap : String → Option ℚ)
    (liveSent : String → ℚ) (data : List Row) (topN : ℕ) (capital : ℚ)
    (sent_w : ℚ) : Except String (List PlanRow) :=
  if data = [] then .error "generate_trade_plan: empty dataset"
  else
    let block := scoredBlock predict sentMap liveSent sent_w data
    if block = [] then .error "generate_trade_plan: no rows for the last day"
    else
      let picks := picksOf predict sentMap liveSent sent_w data topN
      let med := medianQ (picks.filterMap (·.row.std20))
      let perTrade := capital / (max 1 topN : ℕ)
      .ok (picks.map (planRowOf med perTrade))

end Plan

/-! ## Walk-forward machinery

The XGBoost classifier is external to the repository; a fitted model is
identified by the exact list of feature rows it was fitted on, and scoring
is an abstract parameter `predict : List Row → Row → ℚ` (the learned map
from a training set and a row to a probability).  Every claim settled here
is about which rows form each training set and how scores are ranked and
aggregated, never about the numeric behaviour of the learner itself. -/

namespace ML

/-- One scoring step of a walk-forward loop: the cutoff date, the training
set of the model whose probabilities score this step's block, and the
selected picks. -/
structure Step where
  cutoff : ℤ
  trainedOn : List Row
  picks : List (Row × ℚ)
deriving Repr

/-- One row of the realized-return ledger (`ticker`, day, close, the
next-day close when the left join found one, `ret1d`, probability). -/
structure LogRow where
  ticker : String
  date : ℤ
  close : ℚ
  closeNext : Option ℚ
  ret1d : Option ℚ
  prob : ℚ
deriving DecidableEq, Repr

/-- `sorted(data["date"].unique())`. -/
def uniqueDatesSorted (df : List Row) : List ℤ :=
  List.insertionSort (· ≤ ·) (df.map (·.date)).dedup

/-- `sorted(data["date"].unique())[-k:]`: the trailing `k` unique dates. -/
def lastDays (k : ℕ) (df : List Row) : List ℤ :=
  let ds := uniqueDatesSorted df
  ds.drop (ds.length - k)

/-- `block.sort_values("prob", ascending=False).head(topN)`: the shared
top-k selection of `src/ml_model.py` line 44, `src/backtest.py` line 9 and
`ml_backtest_walkforward.py` line 120. -/
def topPicks (topN : ℕ) (scored : List (Row × ℚ)) : List (Row × ℚ) :=
  (pandasSortDesc (·.2) scored).take topN

/-- `picks.merge(nxt, on="ticker", how="left")` against the rows dated
`d + 1` (one calendar day after the cutoff), followed by
`ret1d = close_next/close - 1`: an unmatched join leaves `close_next` and
`ret1d` undefined (`NaN`); a matched join computes the realized return.
A left merge emits one output row per matching right-hand row, and one
`NaN` row when there is no match. -/
def joinNext (df : List Row) (d : ℤ) (picks : List (Row × ℚ)) :
    List LogRow :=
  let nxt := df.filter (fun r => decide (r.date = d + 1))
  picks.bind (fun rp =>
    match nxt.filter (fun m => m.ticker == rp.1.ticker) with
    | [] => [{ ticker := rp.1.ticker, date := d, close := rp.1.close,
               closeNext := none, ret1d := none, prob := rp.2 }]
    | ms => ms.map (fun m =>
        { ticker := rp.1.ticker, date := d, close := rp.1.close,
          closeNext := some m.close,
          ret1d := some (m.close / rp.1.close - 1), prob := rp.2 }))

/-- `ret1d > 0` as pandas evaluates it: `NaN > 0` is `False`. -/
def retPos (r : LogRow) : Bool :=
  match r.ret1d with
  | some v => decide (0 < v)
  | none => false

/-- Modelled from the spec: the reported win rate is "the fraction with
`ret1d > 0`, ignoring undefined rows" — positives divided by the number of
rows with a defined return. -/
def specWinRateDefined (bt : List LogRow) : ℚ :=
  (bt.countP retPos : ℚ) / (bt.countP (·.ret1d.isSome) : ℚ)

/-- Modelled from the spec: top-k selection "by probability, descending,
ties broken by instrument identifier ascending".  The comes-before
relation of that ordering. -/
def specLE (a b : Row × ℚ) : Prop :=
  b.2 < a.2 ∨ (a.2 = b.2 ∧ a.1.ticker ≤ b.1.ticker)

instance : DecidableRel specLE := fun a b => by
  unfold specLE
  infer_instance

/-- Modelled from the spec: the deterministic spec-side top-k selection. -/
def specTopK (topN : ℕ) (scored : List (Row × ℚ)) : List (Row × ℚ) :=
  (List.insertionSort specLE scored).take topN

end ML

/-! ## `src/ml_model.py` — ModelTrainer and its walk-forward backtest -/

namespace MLModel

/-- `data["date"].max()`. -/
def maxDate (df : List Row) : ℤ := ((df.map (·.date)).max?).getD 0

/-- `train_and_eval` (`src/ml_model.py` lines 9-33): fits one model on the
rows with `date <= max(date) - (backtest_days + 5)` days and returns it
(the holdout metrics are printed, not returned).  The fitted model is
identified by its training set. -/
def train_and_eval (df : List Row) (backtest_days : ℕ) : List Row :=
  df.filter (fun r => decide (r.date ≤ maxDate df - (backtest_days + 5)))

/-- The scoring steps of `walkforward_backtest` (`src/ml_model.py`
lines 35-49): over the trailing `days + 1` unique dates except the last,
skipping empty blocks, each block is scored with the *same* model passed in
as an argument — the function fits nothing itself. -/
def walkforward_steps (predict : List Row → Row → ℚ) (model : List Row)
    (df : List Row) (days topN : ℕ) : List ML.Step :=
  ((ML.lastDays (days + 1) df).dropLast).filterMap (fun d =>
    let block := df.filter (fun r => decide (r.date = d))
    if block = [] then none
    else some { cutoff := d, trainedOn := model,
                picks := ML.topPicks topN
                  (block.map (fun r => (r, predict model r))) })

/-- The ledger `walkforward_backtest` persists: the concatenated join rows
with `dropna(subset=["ret1d"])` applied before both the statistics and the
CSV write — undefined returns are dropped from this variant's output. -/
def walkforward_backtest (predict : List Row → Row → ℚ) (model : List Row)
    (df : List Row) (days topN : ℕ) : List ML.LogRow :=
  ((walkforward_steps predict model df days topN).bind
    (fun s => ML.joinNext df s.cutoff s.picks)).filter (·.ret1d.isSome)

/-- `winrate = (bt["ret1d"] > 0).mean()` computed on the already-filtered
`bt` of this variant. -/
def winrate (bt : List ML.LogRow) : ℚ :=
  (bt.countP ML.retPos : ℚ) / (bt.length : ℚ)

end MLModel

/-! ## `src/backtest.py` — the duplicate walk-forward backtest -/

namespace Backtest

/-- `walkforward_backtest` of `src/backtest.py`: same loop as the
`src/ml_model.py` variant (no empty-block guard; an empty block simply
contributes no picks), but the concatenated ledger `bt` is kept *without*
dropping undefined returns. -/
def walkforward_backtest (predict : List Row → Row → ℚ) (model : List Row)
    (df : List Row) (days topN : ℕ) : List ML.LogRow :=
  ((ML.lastDays (days + 1) df).dropLast).bind (fun d =>
    let block := df.filter (fun r => decide (r.date = d))
    ML.joinNext df d
      (ML.topPicks topN (block.map (fun r => (r, predict model r)))))

/-- `win = (bt["ret1d"] > 0).mean()` (`src/backtest.py` line 15): pandas
evaluates `NaN > 0` as `False`, so rows with an undefined return count in
the denominator. -/
def winrate (bt : List ML.LogRow) : ℚ :=
  (bt.countP ML.retPos : ℚ) / (bt.length : ℚ)

/-- `avg = bt["ret1d"].mean()` (`src/backtest.py` line 15): pandas `mean`
skips `NaN`, so only defined returns enter both sum and count. -/
def avgRet (bt : List ML.LogRow) : ℚ :=
  sumQ (bt.filterMap (·.ret1d)) / ((bt.filterMap (·.ret1d)).length : ℚ)

end Backtest

/-! ## `ml_backtest_walkforward.py` — the re-fitting walk-forward script -/

namespace WFScript

/-- `train_model(df, cutoff)` (`ml_backtest_walkforward.py` lines 101-110):
fits a fresh model on the rows with `date <= cutoff`, `None` when that
training set is empty. -/
def train_model (df : List Row) (cutoff : ℤ) : Option (List Row) :=
  let train := df.filter (fun r => decide (r.date ≤ cutoff))
  if train = [] then none else some train

/-- The scoring steps of `walkforward(df)` (`ml_backtest_walkforward.py`
lines 112-121): for each of the trailing `backDays + 1` unique dates except
the last, a model is freshly fitted at that cutoff and scores that day's
block.  The source calls `model.predict_proba` without a `None` guard;
`Option.getD []` stands for that unchecked access (the `None` case is
unreachable because every cutoff is one of `df`'s own dates). -/
def walkforward (predict : List Row → Row → ℚ) (df : List Row)
    (backDays topN : ℕ) : List ML.Step :=
  ((ML.lastDays (backDays + 1) df).dropLast).map (fun d =>
    let model := (train_model df d).getD []
    let block := df.filter (fun r => decide (r.date = d))
    { cutoff := d, trainedOn := model,
      picks := ML.topPicks topN (block.map (fun r => (r, predict model r))) })

end WFScript

/-! ## `src/pnl.py` — PnLReconciler -/

namespace Pnl

/-- One row of `out/performance.csv`. -/
structure Entry where
  tradeDate : ℤ
  exitDate : ℤ
  ticker : String
  buy : ℚ
  exitClose : Option ℚ
  ret : Option ℚ
  pnl : Option ℚ
  capital : ℚ
deriving DecidableEq, Repr

/-- The plan columns `log_from_plan` consumes: `Ticker`, `BuyPrice`,
`Capital`. -/
structure PlanInput where
  ticker : String
  buy : ℚ
  capital : ℚ
deriving DecidableEq, Repr

/-- The upsert key: `(TradeDate, Ticker)`. -/
def keyOf (e : Entry) : ℤ × String := (e.tradeDate, e.ticker)

/-- Keep the first occurrence of each key (recursion on a fuel argument so
the definition stays structural; the fuel is always the list length). -/
def dedupKeepFirst : ℕ → List Entry → List Entry
  | _, [] => []
  | 0, _ :: _ => []
  | n + 1, x :: xs =>
    x :: dedupKeepFirst n (xs.filter (fun y => decide (keyOf y ≠ keyOf x)))

/-- `drop_duplicates(subset=["TradeDate","Ticker"], keep="last")`: keeps,
in their original order, the last occurrence of each key. -/
def dedupKeepLast (l : List Entry) : List Entry :=
  (dedupKeepFirst l.reverse.length l.reverse).reverse

/-- The per-position rows `log_from_plan` computes: the exit close looked
up from the per-ticker OHLC cache at the exit date; a missing close leaves
`Ret` and `PnL` undefined (`NaN`), never zero. -/
def newRows (cache : String → ℤ → Option ℚ) (tradeDate exitDate : ℤ)
    (plan : List PlanInput) : List Entry :=
  plan.map (fun r =>
    let sell := cache r.ticker exitDate
    { tradeDate := tradeDate, exitDate := exitDate, ticker := r.ticker,
      buy := r.buy, exitClose := sell,
      ret := sell.map (fun s => s / r.buy - 1),
      pnl := sell.map (fun s => (s / r.buy - 1) * r.capital),
      capital := r.capital })

/-- `log_from_plan` (`src/pnl.py` lines 28-98), state-passing form: `cache`
is `_close_on` (the per-ticker OHLC cache lookup), `prior` the existing
`performance.csv` (`none` when the file does not exist).  The exit date is
the trade date plus one calendar day (`exit_next_day=True`).  With a prior
ledger the new rows are appended and the result deduplicated by
`(TradeDate, Ticker)` keeping the last occurrence. -/
def log_from_plan (cache : String → ℤ → Option ℚ) (plan : List PlanInput)
    (tradeDate : ℤ) (exitNextDay : Bool) (prior : Option (List Entry)) :
    List Entry :=
  let exitDate := if exitNextDay then tradeDate + 1 else tradeDate
  let rows := newRows cache tradeDate exitDate plan
  match prior with
  | none => rows
  | some old => dedupKeepLast (old ++ rows)

/-- The last entry of the ledger carrying a given key (the unique one after
an upsert). -/
def lookupLast (l : List Entry) (k : ℤ × String) : Option Entry :=
  l.reverse.find? (fun e => decide (keyOf e = k))

/-- `val = perf[perf["TradeDate"]==trade_date].dropna(subset=["Ret"])`
(`src/pnl.py` line 88). -/
def valRows (perf : List Entry) (tradeDate : ℤ) : List Entry :=
  perf.filter (fun e => decide (e.tradeDate = tradeDate) && e.ret.isSome)

/-- `ret > 0` as pandas evaluates it on the summary rows. -/
def retPosE (e : Entry) : Bool :=
  match e.ret with
  | some v => decide (0 < v)
  | none => false

/-- `win = (val["Ret"]>0).mean()` over the defined-return rows of the
reconciled trade date (`src/pnl.py` line 90). -/
def winRate (perf : List Entry) (tradeDate : ℤ) : ℚ :=
  ((valRows perf tradeDate).countP retPosE : ℚ) /
    ((valRows perf tradeDate).length : ℚ)

end Pnl

/-! ## `src/features.py` — FeatureEngine

`open` is a Lean keyword, so the `open` column is named `opn`.  Rolling
standard deviations are carried as their squares (`std20Sq`, `vol20Sq`):
the square root of a rational is not rational, the squared column is `NaN`
on exactly the same rows as the source's column, and no claim below uses a
standard deviation's numeric value. -/

namespace Features

/-- One raw OHLCV row after `pd.to_numeric(..., errors="coerce")`: a cell
that failed coercion is `none`. -/
structure BarRaw where
  date : ℤ
  opn : Option ℚ
  high : Option ℚ
  low : Option ℚ
  close : Option ℚ
  volume : Option ℚ
deriving DecidableEq, Repr

/-- One row surviving `dropna(subset=["close","volume"])`. -/
structure CBar where
  date : ℤ
  opn : Option ℚ
  high : Option ℚ
  low : Option ℚ
  close : ℚ
  volume : ℚ
deriving DecidableEq, Repr

/-- Numeric coercion and `dropna(subset=["close","volume"])`
(`src/features.py` lines 5-8). -/
def coerceBars (bs : List BarRaw) : List CBar :=
  bs.filterMap (fun b =>
    match b.close, b.volume with
    | some c, some v => some ⟨b.date, b.opn, b.high, b.low, c, v⟩
    | _, _ => none)

/-- The close at position `i` of the coerced frame, when it exists. -/
def closeAt (p : List CBar) (i : ℕ) : Option ℚ := (p.get? i).map (·.close)

/-- `close.pct_change(lag)` at row `i`: `NaN` for the first `lag` rows. -/
def pctChange (p : List CBar) (lag i : ℕ) : Option ℚ :=
  if lag ≤ i then do
    let cur ← closeAt p i
    let prev ← closeAt p (i - lag)
    pure (cur / prev - 1)
  else none

/-- The complete rolling window of width `k` ending at row `i`, mapped
through `f`; `NaN` (`none`) while the window is incomplete. -/
def window (p : List CBar) (k i : ℕ) (f : CBar → ℚ) : Option (List ℚ) :=
  if k ≤ i + 1 ∧ i < p.length then
    some (((p.take (i + 1)).drop (i + 1 - k)).map f)
  else none

/-- `rolling(k).mean()` over a column. -/
def rollMean (p : List CBar) (k i : ℕ) (f : CBar → ℚ) : Option ℚ :=
  (window p k i f).map meanQ

/-- `rolling(k).std()` over the close column, squared. -/
def rollVarSq (p : List CBar) (k i : ℕ) : Option ℚ :=
  (window p k i (·.close)).map sampleVarQ

/-- `close.pct_change().rolling(k).std()` squared (`vol20` of the source):
defined only once the window holds `k` returns, i.e. from row `k` on (the
return series itself is `NaN` at row 0). -/
def rollRetVarSq (p : List CBar) (k i : ℕ) : Option ℚ :=
  if k ≤ i ∧ i < p.length then
    some (sampleVarQ ((List.range k).map (fun j =>
      ((closeAt p (i + 1 - k + j)).getD 0) /
        ((closeAt p (i - k + j)).getD 0) - 1)))
  else none

/-- `rsi14` (`src/features.py` lines 18-22): 14-window means of the
clipped up/down moves of `close.diff()`, `rs` with the `1e-9` epsilon, and
`100 - 100/(1+rs)`; `NaN` until row 14 (the diff is `NaN` at row 0). -/
def rsi14At (p : List CBar) (i : ℕ) : Option ℚ :=
  if 14 ≤ i ∧ i < p.length then
    let deltas := (List.range 14).map (fun j =>
      ((closeAt p (i - 13 + j)).getD 0) - ((closeAt p (i - 14 + j)).getD 0))
    let up := deltas.map (fun d => max d 0)
    let down := deltas.map (fun d => max (-d) 0)
    let rs := meanQ up / (meanQ down + 1e-9)
    some (100 - 100 / (1 + rs))
  else none

/-- One fully-defined feature row (the columns of `add_features`'s output
before `dropna()` removes the incomplete rows). -/
structure FeatRow where
  date : ℤ
  opn : ℚ
  high : ℚ
  low : ℚ
  close : ℚ
  volume : ℚ
  ret1 : ℚ
  ret5 : ℚ
  ma5 : ℚ
  ma10 : ℚ
  ma20 : ℚ
  std20Sq : ℚ
  vol20Sq : ℚ
  rsi14 : ℚ
  next_close : ℚ
  y : ℕ
  v20 : ℚ
deriving DecidableEq, Repr

/-- Row `i` of `add_features`'s output when every column is defined there:
all features are computed from rows at or before `i` of the coerced frame;
`next_close` is the close of row `i + 1` (`shift(-1)`), and
`y = (next_close > close).astype(int)`.  The row survives the final
`dropna()` exactly when this returns `some`. -/
def featAt (p : List CBar) (i : ℕ) : Option FeatRow :=
  (p.get? i).bind fun b =>
  b.opn.bind fun o =>
  b.high.bind fun h =>
  b.low.bind fun lo =>
  (pctChange p 1 i).bind fun r1 =>
  (pctChange p 5 i).bind fun r5 =>
  (rollMean p 5 i (·.close)).bind fun m5 =>
  (rollMean p 10 i (·.close)).bind fun m10 =>
  (rollMean p 20 i (·.close)).bind fun m20 =>
  (rollVarSq p 20 i).bind fun s20 =>
  (rollRetVarSq p 20 i).bind fun v20r =>
  (rsi14At p i).bind fun rsi =>
  (closeAt p (i + 1)).bind fun nc =>
  (rollMean p 20 i (·.volume)).bind fun vm20 =>
  some { date := b.date, opn := o, high := h, low := lo, close := b.close,
         volume := b.volume, ret1 := r1, ret5 := r5, ma5 := m5, ma10 := m10,
         ma20 := m20, std20Sq := s20, vol20Sq := v20r, rsi14 := rsi,
         next_close := nc, y := if b.close < nc then 1 else 0, v20 := vm20 }

/-- `add_features` tagged with the source row positions of the coerced
frame (the positions `reset_index(drop=True)` discards). -/
def add_features_idx (bs : List BarRaw) : List (ℕ × FeatRow) :=
  (List.range (coerceBars bs).length).filterMap (fun i =>
    (featAt (coerceBars bs) i).map (fun r => (i, r)))

/-- `add_features` (`src/features.py`): coercion, per-column features,
label, and the final `dropna().reset_index(drop=True)`. -/
def add_features (bs : List BarRaw) : List FeatRow :=
  (add_features_idx bs).map (·.2)

end Features

/-! ## `src/data_fetch.py` and `trading_project/plan_and_size.py` —
PriceSeriesStore -/

namespace DataFetch

/-- Ascending `sort_values("date")`. -/
def sortByDate (l : List Features.CBar) : List Features.CBar :=
  List.insertionSort (fun a b => a.date ≤ b.date) l

/-- What a call to `fetch_prices` produced: the returned frame, whether it
was served from the cache, and the frame written back to the cache file
(`none` when nothing was written). -/
structure FetchResult where
  rows : List Features.CBar
  fromCache : Bool
  wroteCache : Option (List Features.CBar)
deriving Repr

/-- The download branch of `fetch_prices`: `yfinance` (the only source) as
an input; `None`/empty → empty result and no cache write; otherwise numeric
coercion, `dropna(subset=["date","close","volume"])`, cache write of the
coerced rows, and the sorted rows returned. -/
def download (yf : Option (List Features.BarRaw)) : FetchResult :=
  match yf with
  | none => { rows := [], fromCache := false, wroteCache := none }
  | some y =>
    let c := Features.coerceBars y
    { rows := sortByDate c, fromCache := false, wroteCache := some c }

/-- `fetch_prices` (`src/src/data_fetch.py` lines 27-72), state-passing
form.  `cache` is the parsed cache file: `none` for a missing or
unparseable file, otherwise `(schema-valid?, rows)`.  The cache is used
whenever it parses, is non-empty and has the required columns — the
function takes no clock and applies no staleness bound — and otherwise the
single external source is consulted. -/
def fetch_prices (cache : Option (Bool × List Features.BarRaw))
    (yf : Option (List Features.BarRaw)) : FetchResult :=
  match cache with
  | some (schemaOK, rows) =>
    if rows ≠ [] ∧ schemaOK = true then
      { rows := sortByDate (Features.coerceBars rows), fromCache := true,
        wroteCache := none }
    else download yf
  | none => download yf

end DataFetch

namespace PlanAndSize

/-- One parsed row of a `plan_and_size.py` frame; only the `date` column
is inspected by the staleness check, the rest of the row is carried as the
close payload. -/
structure DFRow where
  date : ℤ
  close : ℚ
deriving DecidableEq, Repr

/-- `df["date"].max()`. -/
def maxDate (df : List DFRow) : ℤ := ((df.map (·.date)).max?).getD 0

/-- `load_cached_or_fetch` (`trading_project/plan_and_size.py`
lines 74-89), state-passing form: `cache` is the parsed cache file (`none`
for missing/unparseable); `eodhd` and `yf` are the results of the two
fetch helpers (each `none` on failure or an empty payload).  The cache is
served only when non-empty and its most recent bar is within 3 calendar
days of `today`; otherwise `eodhd` is tried first, then `yf`, and a
non-empty result is persisted (the returned `Bool` is the cache write). -/
def load_cached_or_fetch (cache : Option (List DFRow)) (today : ℤ)
    (eodhd yf : Option (List DFRow)) : Option (List DFRow) × Bool :=
  let fallback :=
    match (match eodhd with | some e => some e | none => yf) with
    | none => (none, false)
    | some d => if d = [] then (none, false) else (some d, true)
  match cache with
  | some df =>
    if df ≠ [] ∧ today - 3 ≤ maxDate df then (some df, false)
    else fallback
  | none => fallback

end PlanAndSize

/-- Unfolding lemma: a successful `generate_trade_plan` returns exactly the
ranked top-`topN` block, sized with `per_trade = capital / max(1, topN)`
and the `std20` median of the selected block. -/
theorem Plan.generate_trade_plan_ok {predict : Row → ℚ}
    {sentMap : String → Option ℚ} {liveSent : String → ℚ} {data : List Row}
    {topN : ℕ} {capital sent_w : ℚ} {plan : List Plan.PlanRow}
    (h : Plan.generate_trade_plan predict sentMap liveSent data topN capital
      sent_w = .ok plan) :
    plan = (Plan.picksOf predict sentMap liveSent sent_w data topN).map
      (Plan.planRowOf
        (medianQ ((Plan.picksOf predict sentMap liveSent sent_w data
          topN).filterMap (·.row.std20)))
        (capital / (max 1 topN : ℕ))) := by
  unfold Plan.generate_trade_plan at h
  split at h
  · exact absurd h (by simp)
  · dsimp only at h
    split at h
    · exact absurd h (by simp)
    · simpa using h.symm

/-- C8 (statement): the blended score of a probability in `[0,1]` and a
clamped sentiment, with weight in `[0,1]`, lies in `[-1,1]`. -/
theorem C8_blended_score_bounded (p v w : ℚ) (hp0 : 0 ≤ p) (hp1 : p ≤ 1)
    (hw0 : 0 ≤ w) (hw1 : w ≤ 1) :
    -1 ≤ Plan.blendedScore w p (Plan.clamp01 v) ∧
      Plan.blendedScore w p (Plan.clamp01 v) ≤ 1 := by
  have hs0 : -1 ≤ Plan.clamp01 v := le_max_left _ _
  have hs1 : Plan.clamp01 v ≤ 1 := max_le (by norm_num) (min_le_left _ _)
  have he0 : -1 ≤ Plan.edge p := by
    unfold Plan.edge
    rw [le_div_iff₀ (by norm_num : (0:ℚ) < 0.5)]
    nlinarith
  have he1 : Plan.edge p ≤ 1 := by
    unfold Plan.edge
    rw [div_le_iff₀ (by norm_num : (0:ℚ) < 0.5)]
    nlinarith
  unfold Plan.blendedScore
  constructor <;> nlinarith [mul_le_mul_of_nonneg_left hs1 hw0,
    mul_le_mul_of_nonneg_left hs0 hw0,
    mul_le_mul_of_nonneg_left he1 (by linarith : (0:ℚ) ≤ 1 - w),
    mul_le_mul_of_nonneg_left he0 (by linarith : (0:ℚ) ≤ 1 - w)]

/-- C8 witness: the bound at `p = 3/4`, `v = 5` (clamped to `1`),
`w = 1/2`. -/
theorem C8_blended_score_bounded_witness :
    (0 ≤ (3/4 : ℚ) ∧ (3/4 : ℚ) ≤ 1 ∧ 0 ≤ (1/2 : ℚ) ∧ (1/2 : ℚ) ≤ 1) ∧
      (-1 ≤ Plan.blendedScore (1/2) (3/4) (Plan.clamp01 5) ∧
        Plan.blendedScore (1/2) (3/4) (Plan.clamp01 5) ≤ 1) :=
  ⟨⟨by norm_num, by norm_num, by norm_num, by norm_num⟩,
    C8_blended_score_bounded (3/4) 5 (1/2) (by norm_num) (by norm_num)
      (by norm_num) (by norm_num)⟩

/-- C5 counterexample: with `capital = 3000`, `topN = 3` and a single
selected instrument whose close is `2000 > slot_capital = 1000`, the
generated position has `quantity = 1` and
`quantity * entry_price = 2000 > 1000`: the claimed invariant fails. -/
theorem C5_counterexample :
    Plan.generate_trade_plan (fun _ => 0.6) (fun _ => none) (fun _ => 0)
        [⟨"AAA", 0, 2000, none⟩] 3 3000 0.3 =
      .ok [{ ticker := "AAA", close := 2000, score := 0.14, prob := 0.6,
             sent := 0, buyPrice := 2000, stop := 1920, target1 := 2060,
             target2 := 2120, qty := 1, capital := 2000 }] ∧
    ¬ ((1 : ℚ) * 2000 ≤ 3000 / 3) := by
  constructor
  · have hf : ⌊(3000 : ℚ) / ((max 1 3 : ℕ) : ℚ) / 2000⌋ = 0 := by
      rw [Int.floor_eq_iff] <;> norm_num
    norm_num [Plan.generate_trade_plan, Plan.picksOf, Plan.scoredBlock,
      Plan.maxDate, Plan.clamp01, Plan.blendedScore, Plan.edge,
      pandasSortDesc2, List.insertionSort, Plan.planRowOf, medianQ,
      roundTo, roundHalfEven, hf]
  · norm_num

/-- C5 (amended): every Position in a generated Plan satisfies
`quantity * entry_price ≤ slot_capital` provided the instrument's close is
positive and does not exceed `slot_capital = capital / topN`; when the
close exceeds the slot, the source's floor of one share
(`max(1, floor(...))`) commits `close > slot_capital` instead. -/
theorem C5_amended_slot_bound (predict : Row → ℚ)
    (sentMap : String → Option ℚ) (liveSent : String → ℚ) (data : List Row)
    (topN : ℕ) (capital sent_w : ℚ) (plan : List Plan.PlanRow) (i : ℕ)
    (pos : Plan.PlanRow) (htop : 1 ≤ topN)
    (hok : Plan.generate_trade_plan predict sentMap liveSent data topN
      capital sent_w = .ok plan)
    (hpos : plan.get? i = some pos) (hc : 0 < pos.buyPrice)
    (hle : pos.buyPrice ≤ capital / (topN : ℚ)) :
    (pos.qty : ℚ) * pos.buyPrice ≤ capital / (topN : ℚ) := by
  have hmax : (max 1 topN : ℕ) = topN := Nat.max_eq_right htop
  rw [Plan.generate_trade_plan_ok hok] at hpos
  rw [List.get?_map] at hpos
  obtain ⟨s, hs, hps⟩ := Option.map_eq_some'.mp hpos
  subst hps
  simp only [Plan.planRowOf, hmax] at hc hle ⊢
  set slot : ℚ := capital / (topN : ℚ) with hslot
  have h1 : (1 : ℚ) ≤ slot / s.row.close := (one_le_div hc).mpr hle
  have hfl : (1 : ℤ) ≤ ⌊slot / s.row.close⌋ := Int.le_floor.mpr (by
    exact_mod_cast h1)
  rw [max_eq_right hfl]
  calc ((⌊slot / s.row.close⌋ : ℤ) : ℚ) * s.row.close
      ≤ slot / s.row.close * s.row.close :=
        mul_le_mul_of_nonneg_right (Int.floor_le _) hc.le
    _ = slot := div_mul_cancel₀ _ hc.ne'

/-- C5 witness: the amended bound at the concrete plan of
`C5_counterexample`'s shape but with an affordable close of `12`. -/
theorem C5_amended_slot_bound_witness :
    ∃ plan pos,
      Plan.generate_trade_plan (fun _ => 0.6) (fun _ => none) (fun _ => 0)
          [⟨"AAA", 0, 12, none⟩] 3 3000 0.3 = .ok plan ∧
      plan.get? 0 = some pos ∧ 0 < pos.buyPrice ∧
      pos.buyPrice ≤ 3000 / (3 : ℚ) ∧
      (pos.qty : ℚ) * pos.buyPrice ≤ 3000 / (3 : ℚ) := by
  have hf : ⌊(3000 : ℚ) / ((max 1 3 : ℕ) : ℚ) / 12⌋ = 83 := by
    rw [Int.floor_eq_iff] <;> norm_num
  have hok : Plan.generate_trade_plan (fun _ => 0.6) (fun _ => none)
      (fun _ => 0) [⟨"AAA", 0, 12, none⟩] 3 3000 0.3 =
      .ok [{ ticker := "AAA", close := 12, score := 0.14, prob := 0.6,
             sent := 0, buyPrice := 12, stop := 11.52, target1 := 12.36,
             target2 := 12.72, qty := 83, capital := 996 }] := by
    norm_num [Plan.generate_trade_plan, Plan.picksOf, Plan.scoredBlock,
      Plan.maxDate, Plan.clamp01, Plan.blendedScore, Plan.edge,
      pandasSortDesc2, List.insertionSort, Plan.planRowOf, medianQ,
      roundTo, roundHalfEven, hf]
  refine ⟨_, _, hok, rfl, by norm_num, by norm_num, ?_⟩
  exact C5_amended_slot_bound _ _ _ _ _ _ _ _ 0 _ (by norm_num) hok rfl
    (by norm_num) (by norm_num)

/-- Evaluation helper: when `x * 10^d` lies in `[n, n + 1/2)`, rounding
half-to-even at `d` decimals gives `n / 10^d`. -/
theorem roundTo_eq_div (d : ℕ) (x : ℚ) (n : ℤ) (h1 : (n : ℚ) ≤ x * 10 ^ d)
    (h2 : x * 10 ^ d < n + 1/2) : roundTo d x = (n : ℚ) / 10 ^ d := by
  unfold roundTo roundHalfEven
  have hf : ⌊x * 10 ^ d⌋ = n :=
    Int.floor_eq_iff.mpr ⟨h1, lt_trans h2 (by linarith)⟩
  rw [hf, if_pos (by linarith)]

/-- C7 (statement): plan sizing uses `slot_capital = capital / topN`,
`quantity = max(1, floor(slot_capital / close))` and a committed capital of
`quantity * close` (stored rounded to 2 decimal places, which leaves the
claim's scenario values exact); in particular the claim's scenario
`capital = 3000`, `top_n = 3`, closes `[12.00, 45.00, 0.90]` yields
quantities `[83, 22, 1111]` and committed capital
`[996.00, 990.00, 999.90]`. -/
theorem C7_equal_capital_sizing :
    (∀ (predict : Row → ℚ) (sentMap : String → Option ℚ)
        (liveSent : String → ℚ) (data : List Row) (topN : ℕ)
        (capital sent_w : ℚ) (plan : List Plan.PlanRow) (i : ℕ)
        (pos : Plan.PlanRow) (s : Plan.Scored),
      1 ≤ topN →
      Plan.generate_trade_plan predict sentMap liveSent data topN capital
        sent_w = .ok plan →
      plan.get? i = some pos →
      (Plan.picksOf predict sentMap liveSent sent_w data topN).get? i =
        some s →
      pos.buyPrice = s.row.close ∧
      pos.qty = max 1 ⌊(capital / (topN : ℚ)) / s.row.close⌋ ∧
      pos.capital = roundTo 2 ((pos.qty : ℚ) * s.row.close)) ∧
    (Plan.generate_trade_plan
        (fun r => if r.close = 12 then 0.9
          else if r.close = 45 then 0.8 else 0.7)
        (fun _ => some 0) (fun _ => 0)
        [⟨"AAA", 0, 12, none⟩, ⟨"BBB", 0, 45, none⟩, ⟨"CCC", 0, 0.9, none⟩]
        3 3000 0.3).map (List.map (fun p => (p.qty, p.capital))) =
      .ok [(83, 996), (22, 990), (1111, 999.9)] := by
  constructor
  · intro predict sentMap liveSent data topN capital sent_w plan i pos s
      htop hok hpos hpick
    have hmax : (max 1 topN : ℕ) = topN := Nat.max_eq_right htop
    rw [Plan.generate_trade_plan_ok hok] at hpos
    rw [List.get?_map, hpick] at hpos
    obtain ⟨hps⟩ := hpos
    refine ⟨rfl, ?_, ?_⟩ <;> simp only [Plan.planRowOf, hmax]
  · have h12 : ⌊(3000 : ℚ) / ((max 1 3 : ℕ) : ℚ) / 12⌋ = 83 := by
      rw [Int.floor_eq_iff] <;> norm_num
    have h45 : ⌊(3000 : ℚ) / ((max 1 3 : ℕ) : ℚ) / 45⌋ = 22 := by
      rw [Int.floor_eq_iff] <;> norm_num
    have h09 : ⌊(3000 : ℚ) / ((max 1 3 : ℕ) : ℚ) / 0.9⌋ = 1111 := by
      rw [Int.floor_eq_iff] <;> norm_num
    norm_num [Plan.generate_trade_plan, Plan.picksOf, Plan.scoredBlock,
      Plan.maxDate, Plan.clamp01, Plan.blendedScore, Plan.edge,
      pandasSortDesc2, List.insertionSort, List.orderedInsert, lexDescLE,
      Plan.planRowOf, medianQ, roundTo, roundHalfEven, h12, h45, h09]
    simp [Except.map]

/-- C7 witness: the sizing formulas instantiated at the scenario's first
position (`close = 12`): quantity `83 = max(1, floor(1000/12))` and
committed capital `996`. -/
theorem C7_equal_capital_sizing_witness :
    ∃ plan pos s,
      Plan.generate_trade_plan (fun _ => 0.6) (fun _ => none) (fun _ => 0)
          [⟨"AAA", 0, 12, none⟩] 3 3000 0.3 = .ok plan ∧
      plan.get? 0 = some pos ∧
      (Plan.picksOf (fun _ => 0.6) (fun _ => none) (fun _ => 0) 0.3
        [⟨"AAA", 0, 12, none⟩] 3).get? 0 = some s ∧
      pos.buyPrice = s.row.close ∧
      pos.qty = max 1 ⌊((3000 : ℚ) / (3 : ℚ)) / s.row.close⌋ ∧
      pos.capital = roundTo 2 ((pos.qty : ℚ) * s.row.close) := by
  have hf : ⌊(3000 : ℚ) / ((max 1 3 : ℕ) : ℚ) / 12⌋ = 83 := by
    rw [Int.floor_eq_iff] <;> norm_num
  have hok : Plan.generate_trade_plan (fun _ => 0.6) (fun _ => none)
      (fun _ => 0) [⟨"AAA", 0, 12, none⟩] 3 3000 0.3 =
      .ok [{ ticker := "AAA", close := 12, score := 0.14, prob := 0.6,
             sent := 0, buyPrice := 12, stop := 11.52, target1 := 12.36,
             target2 := 12.72, qty := 83, capital := 996 }] := by
    norm_num [Plan.generate_trade_plan, Plan.picksOf, Plan.scoredBlock,
      Plan.maxDate, Plan.clamp01, Plan.blendedScore, Plan.edge,
      pandasSortDesc2, List.insertionSort, Plan.planRowOf, medianQ,
      roundTo, roundHalfEven, hf]
  have hpick : (Plan.picksOf (fun _ => 0.6) (fun _ => none) (fun _ => 0) 0.3
      [⟨"AAA", 0, 12, none⟩] 3).get? 0 =
      some ⟨⟨"AAA", 0, 12, none⟩, 0.6, 0, 0.14⟩ := by
    norm_num [Plan.picksOf, Plan.scoredBlock, Plan.maxDate, Plan.clamp01,
      Plan.blendedScore, Plan.edge, pandasSortDesc2, List.insertionSort]
  exact ⟨_, _, _, hok, rfl, hpick,
    C7_equal_capital_sizing.1 _ _ _ _ _ _ _ _ 0 _ _ (by norm_num) hok rfl
      hpick⟩

/-- Forward unfolding: on a non-empty dataset with a non-empty last-day
block, `generate_trade_plan` succeeds and returns the sized top block. -/
theorem Plan.generate_trade_plan_eq_ok (predict : Row → ℚ)
    (sentMap : String → Option ℚ) (liveSent : String → ℚ) (data : List Row)
    (topN : ℕ) (capital sent_w : ℚ) (h1 : data ≠ [])
    (h2 : Plan.scoredBlock predict sentMap liveSent sent_w data ≠ []) :
    Plan.generate_trade_plan predict sentMap liveSent data topN capital
        sent_w =
      .ok ((Plan.picksOf predict sentMap liveSent sent_w data topN).map
        (Plan.planRowOf
          (medianQ ((Plan.picksOf predict sentMap liveSent sent_w data
            topN).filterMap (·.row.std20)))
          (capital / (max 1 topN : ℕ)))) := by
  unfold Plan.generate_trade_plan
  rw [if_neg h1]
  dsimp only
  rw [if_neg h2]

/-- C10 (statement): in plan generation, a selected row with a defined
`std20` gets stop/target prices that do not depend on the block median at
all (first conjunct), while a selected row with an undefined `std20` gets
stop/target prices computed from the median `std20` of the selected block
(second conjunct, where the median of the block's defined `std20` values is
filled in before the percentages are derived); consequently, as the closed
third conjunct shows on two concrete plans, changing another selected
instrument's `std20` changes the stop price of the row whose own `std20` is
undefined, while a defined row is unaffected by co-selected rows. -/
theorem C10_undefined_std20_uses_block_median :
    (∀ (predict : Row → ℚ) (sentMap : String → Option ℚ)
        (liveSent : String → ℚ) (data : List Row) (topN : ℕ)
        (capital sent_w : ℚ) (plan : List Plan.PlanRow) (i : ℕ)
        (pos : Plan.PlanRow) (s : Plan.Scored),
      Plan.generate_trade_plan predict sentMap liveSent data topN capital
        sent_w = .ok plan →
      plan.get? i = some pos →
      (Plan.picksOf predict sentMap liveSent sent_w data topN).get? i =
        some s →
      ((∀ v, s.row.std20 = some v → ∀ med' : Option ℚ,
          pos.stop =
            (Plan.planRowOf med' (capital / (max 1 topN : ℕ)) s).stop ∧
          pos.target1 =
            (Plan.planRowOf med' (capital / (max 1 topN : ℕ)) s).target1 ∧
          pos.target2 =
            (Plan.planRowOf med' (capital / (max 1 topN : ℕ)) s).target2) ∧
        (s.row.std20 = none →
          pos.stop = roundTo 4 (s.row.close * (1 - min (0.04 * (1 +
            (match medianQ ((Plan.picksOf predict sentMap liveSent sent_w
                data topN).filterMap (·.row.std20)) with
              | some m => max 0 m / (s.row.close + 1e-9)
              | none => 0))) 0.072))))) ∧
    (∃ planA planB posA posB,
      Plan.generate_trade_plan (fun r => if r.close = 20 then 0.9 else 0.7)
          (fun _ => some 0) (fun _ => 0)
          [⟨"AAA", 0, 20, some 1⟩, ⟨"CCC", 0, 10, none⟩] 2 3000 0.3 =
        .ok planA ∧
      Plan.generate_trade_plan (fun r => if r.close = 20 then 0.9 else 0.7)
          (fun _ => some 0) (fun _ => 0)
          [⟨"AAA", 0, 20, some 5⟩, ⟨"CCC", 0, 10, none⟩] 2 3000 0.3 =
        .ok planB ∧
      planA.get? 1 = some posA ∧ planB.get? 1 = some posB ∧
      posA.ticker = "CCC" ∧ posB.ticker = "CCC" ∧
      posA.stop = 9.56 ∧ posB.stop = 9.4 ∧ posA.stop ≠ posB.stop) := by
  constructor
  · intro predict sentMap liveSent data topN capital sent_w plan i pos s
      hok hpos hpick
    rw [Plan.generate_trade_plan_ok hok] at hpos
    rw [List.get?_map, hpick] at hpos
    obtain ⟨hps⟩ := hpos
    constructor
    · intro v hv med'
      refine ⟨?_, ?_, ?_⟩ <;> simp only [Plan.planRowOf, hv]
    · intro hnone
      simp only [Plan.planRowOf, hnone]
  · have hokA := Plan.generate_trade_plan_eq_ok
      (fun r => if r.close = 20 then 0.9 else 0.7) (fun _ => some 0)
      (fun _ => 0) [⟨"AAA", 0, 20, some 1⟩, ⟨"CCC", 0, 10, none⟩] 2 3000 0.3
      (by simp)
      (by norm_num [Plan.scoredBlock, Plan.maxDate, Plan.clamp01,
        Plan.blendedScore, Plan.edge]
          <;> simp)
    have hokB := Plan.generate_trade_plan_eq_ok
      (fun r => if r.close = 20 then 0.9 else 0.7) (fun _ => some 0)
      (fun _ => 0) [⟨"AAA", 0, 20, some 5⟩, ⟨"CCC", 0, 10, none⟩] 2 3000 0.3
      (by simp)
      (by norm_num [Plan.scoredBlock, Plan.maxDate, Plan.clamp01,
        Plan.blendedScore, Plan.edge]
          <;> simp)
    have hpickA : (Plan.picksOf (fun r => if r.close = 20 then 0.9 else 0.7)
        (fun _ => some 0) (fun _ => 0) 0.3
        [⟨"AAA", 0, 20, some 1⟩, ⟨"CCC", 0, 10, none⟩] 2).get? 1 =
        some ⟨⟨"CCC", 0, 10, none⟩, 0.7, 0, 0.28⟩ := by
      norm_num [Plan.picksOf, Plan.scoredBlock, Plan.maxDate, Plan.clamp01,
        Plan.blendedScore, Plan.edge, pandasSortDesc2, List.insertionSort,
        List.orderedInsert, lexDescLE]
    have hpickB : (Plan.picksOf (fun r => if r.close = 20 then 0.9 else 0.7)
        (fun _ => some 0) (fun _ => 0) 0.3
        [⟨"AAA", 0, 20, some 5⟩, ⟨"CCC", 0, 10, none⟩] 2).get? 1 =
        some ⟨⟨"CCC", 0, 10, none⟩, 0.7, 0, 0.28⟩ := by
      norm_num [Plan.picksOf, Plan.scoredBlock, Plan.maxDate, Plan.clamp01,
        Plan.blendedScore, Plan.edge, pandasSortDesc2, List.insertionSort,
        List.orderedInsert, lexDescLE]
    have hmedA : medianQ ((Plan.picksOf
        (fun r => if r.close = 20 then 0.9 else 0.7) (fun _ => some 0)
        (fun _ => 0) 0.3 [⟨"AAA", 0, 20, some 1⟩, ⟨"CCC", 0, 10, none⟩]
        2).filterMap (·.row.std20)) = some 1 := by
      norm_num [Plan.picksOf, Plan.scoredBlock, Plan.maxDate, Plan.clamp01,
        Plan.blendedScore, Plan.edge, pandasSortDesc2, List.insertionSort,
        List.orderedInsert, lexDescLE, medianQ, List.filterMap]
    have hmedB : medianQ ((Plan.picksOf
        (fun r => if r.close = 20 then 0.9 else 0.7) (fun _ => some 0)
        (fun _ => 0) 0.3 [⟨"AAA", 0, 20, some 5⟩, ⟨"CCC", 0, 10, none⟩]
        2).filterMap (·.row.std20)) = some 5 := by
      norm_num [Plan.picksOf, Plan.scoredBlock, Plan.maxDate, Plan.clamp01,
        Plan.blendedScore, Plan.edge, pandasSortDesc2, List.insertionSort,
        List.orderedInsert, lexDescLE, medianQ, List.filterMap]
    have hvA : roundTo 4 ((10 : ℚ) * (1 - min (0.04 * (1 +
        max 0 1 / (10 + 1e-9))) 0.072)) = 9.56 := by
      rw [roundTo_eq_div 4 _ 95600 (by norm_num [min_def])
        (by norm_num [min_def])]
      norm_num
    have hvB : roundTo 4 ((10 : ℚ) * (1 - min (0.04 * (1 +
        max 0 5 / (10 + 1e-9))) 0.072)) = 9.4 := by
      rw [roundTo_eq_div 4 _ 94000 (by norm_num [min_def])
        (by norm_num [min_def])]
      norm_num
    refine ⟨_, _,
      Plan.planRowOf (medianQ ((Plan.picksOf
          (fun r => if r.close = 20 then 0.9 else 0.7) (fun _ => some 0)
          (fun _ => 0) 0.3 [⟨"AAA", 0, 20, some 1⟩, ⟨"CCC", 0, 10, none⟩]
          2).filterMap (·.row.std20))) (3000 / ((max 1 2 : ℕ) : ℚ))
        ⟨⟨"CCC", 0, 10, none⟩, 0.7, 0, 0.28⟩,
      Plan.planRowOf (medianQ ((Plan.picksOf
          (fun r => if r.close = 20 then 0.9 else 0.7) (fun _ => some 0)
          (fun _ => 0) 0.3 [⟨"AAA", 0, 20, some 5⟩, ⟨"CCC", 0, 10, none⟩]
          2).filterMap (·.row.std20))) (3000 / ((max 1 2 : ℕ) : ℚ))
        ⟨⟨"CCC", 0, 10, none⟩, 0.7, 0, 0.28⟩,
      hokA, hokB, ?_, ?_, ?_, ?_, ?_, ?_, ?_⟩
    · rw [List.get?_map, hpickA, Option.map_some']
    · rw [List.get?_map, hpickB, Option.map_some']
    · rfl
    · rfl
    · simp only [Plan.planRowOf, hmedA]
      exact hvA
    · simp only [Plan.planRowOf, hmedB]
      exact hvB
    · simp only [Plan.planRowOf, hmedA, hmedB]
      rw [hvA, hvB]
      norm_num

/-- C10 witness: the median-fill conclusion instantiated on the concrete
two-instrument plan whose second pick has `std20 = none`. -/
theorem C10_undefined_std20_uses_block_median_witness :
    ∃ plan pos s,
      Plan.generate_trade_plan (fun r => if r.close = 20 then 0.9 else 0.7)
          (fun _ => some 0) (fun _ => 0)
          [⟨"AAA", 0, 20, some 1⟩, ⟨"CCC", 0, 10, none⟩] 2 3000 0.3 =
        .ok plan ∧
      plan.get? 1 = some pos ∧
      (Plan.picksOf (fun r => if r.close = 20 then 0.9 else 0.7)
        (fun _ => some 0) (fun _ => 0) 0.3
        [⟨"AAA", 0, 20, some 1⟩, ⟨"CCC", 0, 10, none⟩] 2).get? 1 = some s ∧
      s.row.std20 = none ∧
      pos.stop = roundTo 4 (s.row.close * (1 - min (0.04 * (1 +
        (match medianQ ((Plan.picksOf
            (fun r => if r.close = 20 then 0.9 else 0.7) (fun _ => some 0)
            (fun _ => 0) 0.3 [⟨"AAA", 0, 20, some 1⟩, ⟨"CCC", 0, 10, none⟩]
            2).filterMap (·.row.std20)) with
          | some m => max 0 m / (s.row.close + 1e-9)
          | none => 0))) 0.072)) := by
  have hokA := Plan.generate_trade_plan_eq_ok
    (fun r => if r.close = 20 then 0.9 else 0.7) (fun _ => some 0)
    (fun _ => 0) [⟨"AAA", 0, 20, some 1⟩, ⟨"CCC", 0, 10, none⟩] 2 3000 0.3
    (by simp)
    (by norm_num [Plan.scoredBlock, Plan.maxDate, Plan.clamp01,
      Plan.blendedScore, Plan.edge]
        <;> simp)
  have hpickA : (Plan.picksOf (fun r => if r.close = 20 then 0.9 else 0.7)
      (fun _ => some 0) (fun _ => 0) 0.3
      [⟨"AAA", 0, 20, some 1⟩, ⟨"CCC", 0, 10, none⟩] 2).get? 1 =
      some ⟨⟨"CCC", 0, 10, none⟩, 0.7, 0, 0.28⟩ := by
    norm_num [Plan.picksOf, Plan.scoredBlock, Plan.maxDate, Plan.clamp01,
      Plan.blendedScore, Plan.edge, pandasSortDesc2, List.insertionSort,
      List.orderedInsert, lexDescLE]
  have hg : ((Plan.picksOf (fun r => if r.close = 20 then 0.9 else 0.7)
      (fun _ => some 0) (fun _ => 0) 0.3
      [⟨"AAA", 0, 20, some 1⟩, ⟨"CCC", 0, 10, none⟩] 2).map
        (Plan.planRowOf (medianQ ((Plan.picksOf
            (fun r => if r.close = 20 then 0.9 else 0.7) (fun _ => some 0)
            (fun _ => 0) 0.3 [⟨"AAA", 0, 20, some 1⟩, ⟨"CCC", 0, 10, none⟩]
            2).filterMap (·.row.std20)))
          (3000 / ((max 1 2 : ℕ) : ℚ)))).get? 1 =
      some (Plan.planRowOf (medianQ ((Plan.picksOf
          (fun r => if r.close = 20 then 0.9 else 0.7) (fun _ => some 0)
          (fun _ => 0) 0.3 [⟨"AAA", 0, 20, some 1⟩, ⟨"CCC", 0, 10, none⟩]
          2).filterMap (·.row.std20))) (3000 / ((max 1 2 : ℕ) : ℚ))
        ⟨⟨"CCC", 0, 10, none⟩, 0.7, 0, 0.28⟩) := by
    rw [List.get?_map, hpickA, Option.map_some']
  exact ⟨_, _, _, hokA, hg, hpickA, rfl,
    ((C10_undefined_std20_uses_block_median.1 _ _ _ _ _ _ _ _ 1 _ _
      hokA hg hpickA).2 rfl)⟩

/-- `find?` is unchanged by filtering with a predicate implied by the
search predicate. -/
theorem List.find?_filter_of_imp {α : Type} (p q : α → Bool)
    (h : ∀ a, p a = true → q a = true) :
    ∀ l : List α, (l.filter q).find? p = l.find? p
  | [] => rfl
  | a :: l => by
    by_cases hq : q a = true
    · rw [List.filter_cons_of_pos hq]
      by_cases hp : p a = true
      · rw [List.find?_cons_of_pos _ hp, List.find?_cons_of_pos _ hp]
      · rw [List.find?_cons_of_neg _ hp, List.find?_cons_of_neg _ hp,
          List.find?_filter_of_imp p q h l]
    · have hp : ¬p a = true := fun hpa => hq (h a hpa)
      rw [List.filter_cons_of_neg hq, List.find?_cons_of_neg _ hp,
        List.find?_filter_of_imp p q h l]

/-- Members of the keep-first dedup are members of the input. -/
theorem Pnl.mem_dedupKeepFirst {e : Pnl.Entry} :
    ∀ {n : ℕ} {l : List Pnl.Entry}, e ∈ Pnl.dedupKeepFirst n l → e ∈ l := by
  intro n
  induction n with
  | zero =>
    intro l h
    cases l <;> simp [Pnl.dedupKeepFirst] at h
  | succ n ih =>
    intro l h
    cases l with
    | nil => simp [Pnl.dedupKeepFirst] at h
    | cons x xs =>
      simp only [Pnl.dedupKeepFirst, List.mem_cons] at h
      rcases h with rfl | h
      · exact List.mem_cons_self _ _
      · exact List.mem_cons_of_mem _ (List.mem_of_mem_filter (ih h))

/-- The keep-first dedup preserves the first entry found for any key. -/
theorem Pnl.find?_dedupKeepFirst (k : ℤ × String) :
    ∀ {n : ℕ} {l : List Pnl.Entry}, l.length ≤ n →
      (Pnl.dedupKeepFirst n l).find? (fun e => decide (Pnl.keyOf e = k)) =
        l.find? (fun e => decide (Pnl.keyOf e = k)) := by
  intro n
  induction n with
  | zero =>
    intro l hl
    rw [Nat.le_zero, List.length_eq_zero] at hl
    subst hl
    rfl
  | succ n ih =>
    intro l hl
    cases l with
    | nil => rfl
    | cons x xs =>
      simp only [Pnl.dedupKeepFirst]
      by_cases hx : Pnl.keyOf x = k
      · rw [List.find?_cons_of_pos _ (by simpa using hx),
          List.find?_cons_of_pos _ (by simpa using hx)]
      · rw [List.find?_cons_of_neg _ (by simpa using hx),
          List.find?_cons_of_neg _ (by simpa using hx)]
        rw [ih (le_trans (List.length_filter_le _ _)
          (Nat.le_of_succ_le_succ hl))]
        exact List.find?_filter_of_imp _ _
          (fun e he => by
            simp only [decide_eq_true_eq] at he ⊢
            rw [he]
            exact fun hek => hx hek.symm) xs

/-- The keys of the keep-first dedup are pairwise distinct. -/
theorem Pnl.nodup_keys_dedupKeepFirst :
    ∀ {n : ℕ} {l : List Pnl.Entry}, l.length ≤ n →
      ((Pnl.dedupKeepFirst n l).map Pnl.keyOf).Nodup := by
  intro n
  induction n with
  | zero =>
    intro l hl
    rw [Nat.le_zero, List.length_eq_zero] at hl
    subst hl
    simp [Pnl.dedupKeepFirst]
  | succ n ih =>
    intro l hl
    cases l with
    | nil => simp [Pnl.dedupKeepFirst]
    | cons x xs =>
      simp only [Pnl.dedupKeepFirst, List.map_cons, List.nodup_cons]
      refine ⟨?_, ih (le_trans (List.length_filter_le _ _)
        (Nat.le_of_succ_le_succ hl))⟩
      intro hmem
      obtain ⟨e, he, hek⟩ := List.mem_map.mp hmem
      have : e ∈ xs.filter (fun y => decide (Pnl.keyOf y ≠ Pnl.keyOf x)) :=
        Pnl.mem_dedupKeepFirst he
      have := List.of_mem_filter this
      simp only [decide_eq_true_eq] at this
      exact this hek

/-- The deduplicated ledger has pairwise-distinct keys. -/
theorem Pnl.nodup_keys_dedupKeepLast (l : List Pnl.Entry) :
    ((Pnl.dedupKeepLast l).map Pnl.keyOf).Nodup := by
  unfold Pnl.dedupKeepLast
  rw [List.map_reverse, List.nodup_reverse]
  exact Pnl.nodup_keys_dedupKeepFirst le_rfl

/-- Deduplication keeps, per key, exactly the last occurrence. -/
theorem Pnl.lookupLast_dedupKeepLast (l : List Pnl.Entry) (k : ℤ × String) :
    Pnl.lookupLast (Pnl.dedupKeepLast l) k = Pnl.lookupLast l k := by
  unfold Pnl.lookupLast Pnl.dedupKeepLast
  rw [List.reverse_reverse]
  exact Pnl.find?_dedupKeepFirst k le_rfl

/-- Members of the deduplicated ledger are members of the input. -/
theorem Pnl.mem_of_mem_dedupKeepLast {e : Pnl.Entry} {l : List Pnl.Entry}
    (h : e ∈ Pnl.dedupKeepLast l) : e ∈ l := by
  unfold Pnl.dedupKeepLast at h
  rw [List.mem_reverse] at h
  exact List.mem_reverse.mp (Pnl.mem_dedupKeepFirst h)

/-- C9 (statement): reconciling the same Plan twice leaves the ledger with
exactly one entry per `(trade_date, instrument)` key (first conjunct); for
every key produced by the plan the surviving entry is the latest
computation for that key (second conjunct); and every surviving entry
carrying a plan key comes from the new computation — any pre-existing entry
with the same key has been overwritten (third conjunct). -/
theorem C9_ledger_upsert_idempotent (cache : String → ℤ → Option ℚ)
    (plan : List Pnl.PlanInput) (td : ℤ) (prior : Option (List Pnl.Entry)) :
    ((Pnl.log_from_plan cache plan td true
        (some (Pnl.log_from_plan cache plan td true prior))).map
      Pnl.keyOf).Nodup ∧
    (∀ k ∈ (Pnl.newRows cache td (td + 1) plan).map Pnl.keyOf,
      Pnl.lookupLast (Pnl.log_from_plan cache plan td true
          (some (Pnl.log_from_plan cache plan td true prior))) k =
        Pnl.lookupLast (Pnl.newRows cache td (td + 1) plan) k) ∧
    (∀ e ∈ Pnl.log_from_plan cache plan td true
        (some (Pnl.log_from_plan cache plan td true prior)),
      Pnl.keyOf e ∈ (Pnl.newRows cache td (td + 1) plan).map Pnl.keyOf →
      e ∈ Pnl.newRows cache td (td + 1) plan) := by
  set rows := Pnl.newRows cache td (td + 1) plan with hrows
  set L1 := Pnl.log_from_plan cache plan td true prior with hL1
  have hL2 : Pnl.log_from_plan cache plan td true (some L1) =
      Pnl.dedupKeepLast (L1 ++ rows) := rfl
  rw [hL2]
  have hnd := Pnl.nodup_keys_dedupKeepLast (L1 ++ rows)
  have hlook : ∀ k ∈ rows.map Pnl.keyOf,
      Pnl.lookupLast (Pnl.dedupKeepLast (L1 ++ rows)) k =
        Pnl.lookupLast rows k := by
    intro k hk
    rw [Pnl.lookupLast_dedupKeepLast]
    unfold Pnl.lookupLast
    rw [List.reverse_append, List.find?_append]
    obtain ⟨e0, he0, hk0⟩ := List.mem_map.mp hk
    have hsome : (rows.reverse.find?
        (fun e => decide (Pnl.keyOf e = k))).isSome :=
      List.find?_isSome.mpr ⟨e0, List.mem_reverse.mpr he0, by simp [hk0]⟩
    obtain ⟨a, ha⟩ := Option.isSome_iff_exists.mp hsome
    rw [ha]
    rfl
  refine ⟨hnd, hlook, ?_⟩
  intro e he hke
  have hsome : ((Pnl.dedupKeepLast (L1 ++ rows)).reverse.find?
      (fun x => decide (Pnl.keyOf x = Pnl.keyOf e))).isSome :=
    List.find?_isSome.mpr ⟨e, List.mem_reverse.mpr he, by simp⟩
  obtain ⟨e2, he2⟩ := Option.isSome_iff_exists.mp hsome
  have hk2 : Pnl.keyOf e2 = Pnl.keyOf e := by
    have := List.find?_some he2
    simpa using this
  have hm2 : e2 ∈ Pnl.dedupKeepLast (L1 ++ rows) :=
    List.mem_reverse.mp (List.mem_of_find?_eq_some he2)
  have hee : e2 = e := List.inj_on_of_nodup_map hnd hm2 he hk2
  have hlk : Pnl.lookupLast (Pnl.dedupKeepLast (L1 ++ rows))
      (Pnl.keyOf e) = some e := by
    unfold Pnl.lookupLast
    rw [he2, hee]
  rw [hlook _ hke] at hlk
  exact List.mem_reverse.mp (List.mem_of_find?_eq_some hlk)

/-- C9 witness: a two-position plan reconciled twice on top of a
pre-existing ledger entry for the same `(trade_date, instrument)` key; the
surviving entry for key `(5, "A")` is the latest computation. -/
theorem C9_ledger_upsert_idempotent_witness :
    ((5 : ℤ), "A") ∈ (Pnl.newRows
      (fun t d => if t = "A" ∧ d = 6 then some 11 else none) 5 6
      [⟨"A", 10, 100⟩, ⟨"B", 10, 100⟩]).map Pnl.keyOf ∧
    Pnl.lookupLast (Pnl.log_from_plan
        (fun t d => if t = "A" ∧ d = 6 then some 11 else none)
        [⟨"A", 10, 100⟩, ⟨"B", 10, 100⟩] 5 true
        (some (Pnl.log_from_plan
          (fun t d => if t = "A" ∧ d = 6 then some 11 else none)
          [⟨"A", 10, 100⟩, ⟨"B", 10, 100⟩] 5 true
          (some [⟨5, 6, "A", 9, some 9, some 0, some 0, 50⟩]))))
      ((5 : ℤ), "A") =
    Pnl.lookupLast (Pnl.newRows
      (fun t d => if t = "A" ∧ d = 6 then some 11 else none) 5 6
      [⟨"A", 10, 100⟩, ⟨"B", 10, 100⟩]) ((5 : ℤ), "A") := by
  constructor
  · simp [Pnl.newRows, Pnl.keyOf]
  · exact (C9_ledger_upsert_idempotent
      (fun t d => if t = "A" ∧ d = 6 then some 11 else none)
      [⟨"A", 10, 100⟩, ⟨"B", 10, 100⟩] 5
      (some [⟨5, 6, "A", 9, some 9, some 0, some 0, 50⟩])).2.1
      ((5 : ℤ), "A") (by simp [Pnl.newRows, Pnl.keyOf])

/-- Every ledger row the left join emits satisfies
`ret1d = close_next/close - 1` lifted over definedness: an unmatched join
leaves `ret1d` undefined; it is never coerced to zero. -/
theorem ML.joinNext_ret1d {df : List Row} {d : ℤ} {picks : List (Row × ℚ)}
    {r : ML.LogRow} (h : r ∈ ML.joinNext df d picks) :
    r.ret1d = r.closeNext.map (fun cn => cn / r.close - 1) := by
  simp only [ML.joinNext, List.mem_bind] at h
  obtain ⟨rp, hrp, hr⟩ := h
  rcases hcase : (df.filter (fun x => decide (x.date = d + 1))).filter
      (fun m => m.ticker == rp.1.ticker) with _ | ⟨m, ms⟩ <;>
    rw [hcase] at hr
  · simp only [List.mem_singleton] at hr
    subst hr
    rfl
  · simp only [List.mem_map] at hr
    obtain ⟨m', hm', hr⟩ := hr
    subst hr
    rfl

/-- C6 counterexample: on a concrete two-instrument run where instrument
"B" has no next-day bar, the ledger of `src/backtest.py` retains the row
with an undefined return, yet its reported win rate is `1/2` — the
undefined row is counted in the denominator — while the fraction with
`ret1d > 0` among the rows with a defined return is `1`. -/
theorem C6_counterexample :
    Backtest.walkforward_backtest (fun _ _ => 0) []
        [⟨"A", 0, 10, none⟩, ⟨"A", 1, 11, none⟩, ⟨"B", 0, 10, none⟩] 1 2 =
      [{ ticker := "B", date := 0, close := 10, closeNext := none,
         ret1d := none, prob := 0 },
       { ticker := "A", date := 0, close := 10, closeNext := some 11,
         ret1d := some (1/10), prob := 0 }] ∧
    Backtest.winrate (Backtest.walkforward_backtest (fun _ _ => 0) []
        [⟨"A", 0, 10, none⟩, ⟨"A", 1, 11, none⟩, ⟨"B", 0, 10, none⟩] 1 2) =
      1/2 ∧
    ML.specWinRateDefined (Backtest.walkforward_backtest (fun _ _ => 0) []
        [⟨"A", 0, 10, none⟩, ⟨"A", 1, 11, none⟩, ⟨"B", 0, 10, none⟩] 1 2) =
      1 ∧
    (1/2 : ℚ) ≠ 1 := by
  have hbt : Backtest.walkforward_backtest (fun _ _ => 0) []
      [⟨"A", 0, 10, none⟩, ⟨"A", 1, 11, none⟩, ⟨"B", 0, 10, none⟩] 1 2 =
      [{ ticker := "B", date := 0, close := 10, closeNext := none,
         ret1d := none, prob := 0 },
       { ticker := "A", date := 0, close := 10, closeNext := some 11,
         ret1d := some (1/10), prob := 0 }] := by
    norm_num [Backtest.walkforward_backtest, ML.lastDays,
      ML.uniqueDatesSorted, List.insertionSort, List.orderedInsert,
      List.dedup, List.pwFilter, ML.topPicks, pandasSortDesc, ML.joinNext,
      List.bind, List.filter]
    simp
  refine ⟨hbt, ?_, ?_, by norm_num⟩
  · rw [hbt]
    norm_num [Backtest.winrate, ML.retPos, List.countP, List.countP.go]
  · rw [hbt]
    norm_num [ML.specWinRateDefined, ML.retPos, List.countP, List.countP.go]

/-- C6 (amended): a selected row or reconciled position with no matching
next-date or exit-date close keeps an explicitly undefined realized return
(`ret1d = close_next/close - 1` lifted over definedness — never coerced to
zero) and is retained in the raw ledger.  In `src/pnl.py` the reported win
rate is the fraction with a positive return among only the trade date's
rows with a defined return, and in `src/ml_model.py` the reported win rate
equals the spec's defined-rows-only fraction over the full join ledger; in
`src/backtest.py`, however, undefined rows are counted in the win-rate
denominator (`NaN > 0` is `False`), so its win rate only matches the spec's
fraction when every ledger row has a defined return (second conjunct). -/
theorem C6_joinmiss_amended :
    (∀ (predict : List Row → Row → ℚ) (model df : List Row)
        (days topN : ℕ),
      ∀ r ∈ Backtest.walkforward_backtest predict model df days topN,
        r.ret1d = r.closeNext.map (fun cn => cn / r.close - 1)) ∧
    (∀ bt : List ML.LogRow, (∀ r ∈ bt, r.ret1d.isSome) →
      Backtest.winrate bt = ML.specWinRateDefined bt) ∧
    (∀ (predict : List Row → Row → ℚ) (model df : List Row)
        (days topN : ℕ),
      MLModel.winrate (MLModel.walkforward_backtest predict model df days
        topN) =
      ML.specWinRateDefined ((MLModel.walkforward_steps predict model df
        days topN).bind (fun s => ML.joinNext df s.cutoff s.picks))) ∧
    (∀ (cache : String → ℤ → Option ℚ) (plan : List Pnl.PlanInput) (td : ℤ)
        (prior : Option (List Pnl.Entry)),
      (∀ e ∈ Pnl.newRows cache td (td + 1) plan,
        e.ret = (cache e.ticker (td + 1)).map (fun s => s / e.buy - 1)) ∧
      (∀ k ∈ (Pnl.newRows cache td (td + 1) plan).map Pnl.keyOf,
        ∃ e ∈ Pnl.log_from_plan cache plan td true prior,
          Pnl.keyOf e = k)) ∧
    (∀ (perf : List Pnl.Entry) (td : ℤ),
      Pnl.winRate perf td =
        (perf.countP (fun e => decide (e.tradeDate = td) &&
          Pnl.retPosE e) : ℚ) /
        (perf.countP (fun e => decide (e.tradeDate = td) &&
          e.ret.isSome) : ℚ)) := by
  refine ⟨?_, ?_, ?_, ?_, ?_⟩
  · intro predict model df days topN r hr
    simp only [Backtest.walkforward_backtest, List.mem_bind] at hr
    obtain ⟨d, hd, hr⟩ := hr
    exact ML.joinNext_ret1d hr
  · intro bt hall
    unfold Backtest.winrate ML.specWinRateDefined
    rw [show List.countP (fun x => x.ret1d.isSome) bt = bt.length from
      List.countP_eq_length.mpr (fun r hr => by simpa using hall r hr)]
  · intro predict model df days topN
    set logs := (MLModel.walkforward_steps predict model df days
      topN).bind (fun s => ML.joinNext df s.cutoff s.picks) with hlogs
    unfold MLModel.winrate MLModel.walkforward_backtest
      ML.specWinRateDefined
    rw [← hlogs, List.countP_filter, ← List.countP_eq_length_filter]
    have hc : List.countP (fun a => ML.retPos a && a.ret1d.isSome) logs =
        List.countP ML.retPos logs := by
      apply List.countP_congr
      intro r _
      cases hrt : r.ret1d <;> simp [ML.retPos, hrt]
    rw [hc]
  · intro cache plan td prior
    constructor
    · intro e he
      simp only [Pnl.newRows, List.mem_map] at he
      obtain ⟨r, hr, rfl⟩ := he
      rfl
    · intro k hk
      obtain ⟨e0, he0, hk0⟩ := List.mem_map.mp hk
      cases prior with
      | none => exact ⟨e0, he0, hk0⟩
      | some old =>
        have hL : Pnl.log_from_plan cache plan td true (some old) =
            Pnl.dedupKeepLast (old ++ Pnl.newRows cache td (td + 1) plan) :=
          rfl
        rw [hL]
        have hsome : (((Pnl.dedupKeepLast (old ++ Pnl.newRows cache td
            (td + 1) plan))).reverse.find?
            (fun e => decide (Pnl.keyOf e = k))).isSome := by
          have h1 : Pnl.lookupLast (Pnl.dedupKeepLast (old ++
              Pnl.newRows cache td (td + 1) plan)) k =
              Pnl.lookupLast (old ++ Pnl.newRows cache td (td + 1) plan)
                k := Pnl.lookupLast_dedupKeepLast _ _
          unfold Pnl.lookupLast at h1
          rw [h1, List.reverse_append, List.find?_append]
          have : ((Pnl.newRows cache td (td + 1) plan).reverse.find?
              (fun e => decide (Pnl.keyOf e = k))).isSome :=
            List.find?_isSome.mpr ⟨e0, List.mem_reverse.mpr he0,
              by simp [hk0]⟩
          obtain ⟨a, ha⟩ := Option.isSome_iff_exists.mp this
          rw [ha]
          rfl
        obtain ⟨e, he⟩ := Option.isSome_iff_exists.mp hsome
        refine ⟨e, List.mem_reverse.mp (List.mem_of_find?_eq_some he), ?_⟩
        have := List.find?_some he
        simpa using this
  · intro perf td
    unfold Pnl.winRate Pnl.valRows
    rw [List.countP_filter, ← List.countP_eq_length_filter]
    have hc : List.countP (fun a => Pnl.retPosE a &&
        (decide (a.tradeDate = td) && a.ret.isSome)) perf =
        List.countP (fun e => decide (e.tradeDate = td) &&
          Pnl.retPosE e) perf := by
      apply List.countP_congr
      intro e _
      cases he : e.ret <;>
        simp [Pnl.retPosE, he, Bool.and_comm]
    rw [hc]

/-- C6 witness: the join-miss row of a concrete backtest ledger has an
undefined return satisfying the lifted return formula. -/
theorem C6_joinmiss_amended_witness :
    ∃ r ∈ Backtest.walkforward_backtest (fun _ _ => 0) []
        [⟨"A", 0, 10, none⟩, ⟨"A", 1, 11, none⟩, ⟨"B", 0, 10, none⟩] 1 2,
      r.ret1d = r.closeNext.map (fun cn => cn / r.close - 1) ∧
      r.ret1d = none := by
  have hbt : Backtest.walkforward_backtest (fun _ _ => 0) []
      [⟨"A", 0, 10, none⟩, ⟨"A", 1, 11, none⟩, ⟨"B", 0, 10, none⟩] 1 2 =
      [{ ticker := "B", date := 0, close := 10, closeNext := none,
         ret1d := none, prob := 0 },
       { ticker := "A", date := 0, close := 10, closeNext := some 11,
         ret1d := some (1/10), prob := 0 }] := by
    norm_num [Backtest.walkforward_backtest, ML.lastDays,
      ML.uniqueDatesSorted, List.insertionSort, List.orderedInsert,
      List.dedup, List.pwFilter, ML.topPicks, pandasSortDesc, ML.joinNext,
      List.bind, List.filter]
    simp
  refine ⟨⟨"B", 0, 10, none, none, 0⟩, ?_, ?_, rfl⟩
  · rw [hbt]
    simp
  · exact C6_joinmiss_amended.1 (fun _ _ => 0) []
      [⟨"A", 0, 10, none⟩, ⟨"A", 1, 11, none⟩, ⟨"B", 0, 10, none⟩] 1 2 _
      (by rw [hbt]; simp)

/-- Two permuted lists that are both strictly sorted (descending) under the
same key are equal. -/
theorem List.eq_of_perm_of_strict_sorted {α : Type} (f : α → ℚ) :
    ∀ {l1 l2 : List α}, List.Perm l1 l2 →
      l1.Pairwise (fun a b => f b < f a) →
      l2.Pairwise (fun a b => f b < f a) → l1 = l2 := by
  intro l1
  induction l1 with
  | nil =>
    intro l2 hp _ _
    exact (hp.nil_eq).symm ▸ rfl
  | cons a t ih =>
    intro l2 hp h1 h2
    cases l2 with
    | nil => exact absurd hp.symm.nil_eq (by simp)
    | cons b t2 =>
      have hab : a = b := by
        have hamem : a ∈ b :: t2 := hp.mem_iff.mp (List.mem_cons_self _ _)
        rcases List.mem_cons.mp hamem with h | hat2
        · exact h
        · exfalso
          have hfa : f a < f b := List.rel_of_pairwise_cons h2 hat2
          have hbmem : b ∈ a :: t := hp.symm.mem_iff.mp
            (List.mem_cons_self _ _)
          rcases List.mem_cons.mp hbmem with h | hbt
          · subst h
            exact lt_irrefl _ hfa
          · exact lt_asymm hfa (List.rel_of_pairwise_cons h1 hbt)
      subst hab
      have ht : List.Perm t t2 := hp.cons_inv
      rw [ih ht h1.of_cons h2.of_cons]

/-- C4 counterexample: two instruments tied at probability `0.6`, listed in
ascending instrument order.  The code's selection (`sort_values("prob",
ascending=False).head(1)`, i.e. an ascending argsort whose indexer is
reversed) picks `"ZZZ"`, while the spec's tie-break by instrument
identifier ascending picks `"AAA"`: the claimed ordering is violated on
ties. -/
theorem C4_counterexample :
    ML.topPicks 1 [(⟨"AAA", 0, 1, none⟩, 0.6), (⟨"ZZZ", 0, 1, none⟩, 0.6)] =
      [(⟨"ZZZ", 0, 1, none⟩, 0.6)] ∧
    ML.specTopK 1 [(⟨"AAA", 0, 1, none⟩, 0.6), (⟨"ZZZ", 0, 1, none⟩, 0.6)] =
      [(⟨"AAA", 0, 1, none⟩, 0.6)] ∧
    ML.topPicks 1 [(⟨"AAA", 0, 1, none⟩, 0.6), (⟨"ZZZ", 0, 1, none⟩, 0.6)] ≠
      ML.specTopK 1 [(⟨"AAA", 0, 1, none⟩, 0.6), (⟨"ZZZ", 0, 1, none⟩, 0.6)] := by
  have h1 : ML.topPicks 1
      [(⟨"AAA", 0, 1, none⟩, 0.6), (⟨"ZZZ", 0, 1, none⟩, 0.6)] =
      [(⟨"ZZZ", 0, 1, none⟩, 0.6)] := by
    norm_num [ML.topPicks, pandasSortDesc, List.insertionSort,
      List.orderedInsert]
  have h2 : ML.specTopK 1
      [(⟨"AAA", 0, 1, none⟩, 0.6), (⟨"ZZZ", 0, 1, none⟩, 0.6)] =
      [(⟨"AAA", 0, 1, none⟩, 0.6)] := by
    norm_num [ML.specTopK, List.insertionSort, List.orderedInsert,
      ML.specLE]
    rw [if_pos (show (['A', 'A', 'A'] : List Char) ≤ ['Z', 'Z', 'Z'] by
      decide)]
    simp
  refine ⟨h1, h2, ?_⟩
  rw [h1, h2]
  simp

/-- C4 (amended): the walk-forward top-k selection returns the top `top_k`
rows ordered by probability descending (first conjunct), of length
`min top_k n` (third conjunct); whenever the probabilities of the scored
block are pairwise distinct it coincides with the spec's selection
(second conjunct).  On ties, however, the order is the reverse of the
block's row order — pandas reverses an ascending argsort for
`ascending=False` — not instrument-identifier ascending
(see the counterexample); re-running on identical scores is deterministic
because the selection is a pure function of the scored block. -/
theorem C4_topk_selection_amended :
    (∀ (scored : List (Row × ℚ)) (k : ℕ),
      (ML.topPicks k scored).Pairwise (fun a b => b.2 ≤ a.2)) ∧
    (∀ (scored : List (Row × ℚ)) (k : ℕ),
      scored.Pairwise (fun a b => a.2 ≠ b.2) →
      ML.topPicks k scored = ML.specTopK k scored) ∧
    (∀ (scored : List (Row × ℚ)) (k : ℕ),
      (ML.topPicks k scored).length = min k scored.length) := by
  haveI hto : IsTotal (Row × ℚ) (fun a b => a.2 ≤ b.2) :=
    ⟨fun a b => le_total _ _⟩
  haveI htr : IsTrans (Row × ℚ) (fun a b => a.2 ≤ b.2) :=
    ⟨fun _ _ _ h1 h2 => le_trans h1 h2⟩
  haveI hto2 : IsTotal (Row × ℚ) ML.specLE := ⟨fun a b => by
    rcases lt_trichotomy a.2 b.2 with h | h | h
    · exact Or.inr (Or.inl h)
    · rcases le_total a.1.ticker b.1.ticker with ht | ht
      · exact Or.inl (Or.inr ⟨h, ht⟩)
      · exact Or.inr (Or.inr ⟨h.symm, ht⟩)
    · exact Or.inl (Or.inl h)⟩
  haveI htr2 : IsTrans (Row × ℚ) ML.specLE := ⟨fun a b c hab hbc => by
    rcases hab with h1 | ⟨h1, h1t⟩ <;> rcases hbc with h2 | ⟨h2, h2t⟩
    · exact Or.inl (lt_trans h2 h1)
    · exact Or.inl (h2 ▸ h1)
    · exact Or.inl (h1 ▸ h2)
    · exact Or.inr ⟨h1.trans h2, le_trans h1t h2t⟩⟩
  have hsorted : ∀ scored : List (Row × ℚ),
      ((List.insertionSort (fun a b => a.2 ≤ b.2) scored).reverse).Pairwise
        (fun a b => b.2 ≤ a.2) := fun scored =>
    List.pairwise_reverse.mpr (List.sorted_insertionSort _ scored)
  refine ⟨?_, ?_, ?_⟩
  · intro scored k
    exact (hsorted scored).sublist (List.take_sublist _ _)
  · intro scored k hd
    unfold ML.topPicks pandasSortDesc ML.specTopK
    suffices h : (List.insertionSort (fun a b => a.2 ≤ b.2)
        scored).reverse = List.insertionSort ML.specLE scored by
      rw [h]
    have p1 : List.Perm
        (List.insertionSort (fun a b => a.2 ≤ b.2) scored).reverse
        scored :=
      (List.reverse_perm _).trans (List.perm_insertionSort _ scored)
    have p2 : List.Perm (List.insertionSort ML.specLE scored) scored :=
      List.perm_insertionSort _ scored
    have hne1 : ((List.insertionSort (fun a b => a.2 ≤ b.2)
        scored).reverse).Pairwise (fun a b => a.2 ≠ b.2) :=
      hd.perm p1.symm (fun h => Ne.symm h)
    have hne2 : (List.insertionSort ML.specLE scored).Pairwise
        (fun a b => a.2 ≠ b.2) :=
      hd.perm p2.symm (fun h => Ne.symm h)
    apply List.eq_of_perm_of_strict_sorted (fun a => a.2)
      (p1.trans p2.symm)
    · exact ((hsorted scored).and hne1).imp
        (fun h => lt_of_le_of_ne h.1 (Ne.symm h.2))
    · refine ((List.sorted_insertionSort ML.specLE scored).and hne2).imp
        (fun h => ?_)
      rcases h.1 with hlt | ⟨heq, _⟩
      · exact hlt
      · exact absurd heq h.2
  · intro scored k
    simp [ML.topPicks, pandasSortDesc]

/-- C4 witness: on a two-row block with distinct probabilities the code's
selection equals the spec's selection, and both are the higher-probability
row. -/
theorem C4_topk_selection_amended_witness :
    ([(⟨"AAA", 0, 1, none⟩, 0.5), (⟨"BBB", 0, 1, none⟩, 0.9)] :
      List (Row × ℚ)).Pairwise (fun a b => a.2 ≠ b.2) ∧
    ML.topPicks 1 [(⟨"AAA", 0, 1, none⟩, 0.5), (⟨"BBB", 0, 1, none⟩, 0.9)] =
      ML.specTopK 1
        [(⟨"AAA", 0, 1, none⟩, 0.5), (⟨"BBB", 0, 1, none⟩, 0.9)] ∧
    ML.topPicks 1 [(⟨"AAA", 0, 1, none⟩, 0.5), (⟨"BBB", 0, 1, none⟩, 0.9)] =
      [(⟨"BBB", 0, 1, none⟩, 0.9)] := by
  refine ⟨by norm_num, C4_topk_selection_amended.2.1 _ 1 (by norm_num), ?_⟩
  norm_num [ML.topPicks, pandasSortDesc, List.insertionSort,
    List.orderedInsert]

/-- C1 counterexample: in `src/ml_model.py` the walk-forward loop scores
every test block with the single model passed in from `train_and_eval`,
which was fitted once at the calendar cutoff `max(date) - (backtest_days +
5)` days.  On a concrete frame whose trailing dates are sparse, the step at
cutoff `1` is scored by a model whose training set contains the row dated
`3 > 1` — the model is neither freshly fitted at that step nor fitted on
exactly the rows with `date ≤ 1`. -/
theorem C1_counterexample :
    ∃ s : ML.Step,
      (MLModel.walkforward_steps (fun _ _ => 0)
        (MLModel.train_and_eval
          [⟨"A", 0, 1, none⟩, ⟨"A", 1, 2, none⟩, ⟨"A", 2, 3, none⟩,
           ⟨"A", 3, 4, none⟩, ⟨"A", 50, 5, none⟩] 3)
        [⟨"A", 0, 1, none⟩, ⟨"A", 1, 2, none⟩, ⟨"A", 2, 3, none⟩,
         ⟨"A", 3, 4, none⟩, ⟨"A", 50, 5, none⟩] 3 10).get? 0 = some s ∧
      s.cutoff = 1 ∧
      (⟨"A", 3, 4, none⟩ : Row) ∈ s.trainedOn ∧
      ¬ ((3 : ℤ) ≤ s.cutoff) ∧
      s.trainedOn ≠
        [⟨"A", 0, 1, none⟩, ⟨"A", 1, 2, none⟩, ⟨"A", 2, 3, none⟩,
         ⟨"A", 3, 4, none⟩, ⟨"A", 50, 5, none⟩].filter
          (fun r => decide (r.date ≤ s.cutoff)) := by
  have htr : MLModel.train_and_eval
      [⟨"A", 0, 1, none⟩, ⟨"A", 1, 2, none⟩, ⟨"A", 2, 3, none⟩,
       ⟨"A", 3, 4, none⟩, ⟨"A", 50, 5, none⟩] 3 =
      [⟨"A", 0, 1, none⟩, ⟨"A", 1, 2, none⟩, ⟨"A", 2, 3, none⟩,
       ⟨"A", 3, 4, none⟩] := by
    norm_num [MLModel.train_and_eval, MLModel.maxDate, List.filter]
  have hstep : (MLModel.walkforward_steps (fun _ _ => 0)
      (MLModel.train_and_eval
        [⟨"A", 0, 1, none⟩, ⟨"A", 1, 2, none⟩, ⟨"A", 2, 3, none⟩,
         ⟨"A", 3, 4, none⟩, ⟨"A", 50, 5, none⟩] 3)
      [⟨"A", 0, 1, none⟩, ⟨"A", 1, 2, none⟩, ⟨"A", 2, 3, none⟩,
       ⟨"A", 3, 4, none⟩, ⟨"A", 50, 5, none⟩] 3 10).get? 0 =
      some { cutoff := 1,
             trainedOn := [⟨"A", 0, 1, none⟩, ⟨"A", 1, 2, none⟩,
               ⟨"A", 2, 3, none⟩, ⟨"A", 3, 4, none⟩],
             picks := [(⟨"A", 1, 2, none⟩, 0)] } := by
    rw [htr]
    norm_num [MLModel.walkforward_steps, ML.lastDays, ML.uniqueDatesSorted,
      List.insertionSort, List.orderedInsert, List.dedup, List.pwFilter,
      List.filter, ML.topPicks, pandasSortDesc, List.filterMap]
  refine ⟨_, hstep, rfl, by simp, by norm_num, ?_⟩
  norm_num [List.filter]
  simp

/-- C1 (amended): in `ml_backtest_walkforward.py` the claim holds — at
every cutoff `Di` of the evaluated window a model is freshly fitted at that
step on exactly the rows with `date ≤ Di` (no row dated after `Di` is in
its training set, and the probabilities ranking the test block come from
that very model), and the per-step training sets grow monotonically along
the window (no state is carried: each step's model is a function of the
frame and its own cutoff alone).  In `src/ml_model.py`, by contrast, one
pre-fitted model is reused for every step — see the counterexample. -/
theorem C1_fresh_fit_per_cutoff_amended :
    ∀ (predict : List Row → Row → ℚ) (df : List Row) (backDays topN : ℕ),
      (∀ s ∈ WFScript.walkforward predict df backDays topN,
        s.trainedOn = df.filter (fun r => decide (r.date ≤ s.cutoff)) ∧
        (∀ r ∈ s.trainedOn, r.date ≤ s.cutoff) ∧
        s.picks = ML.topPicks topN
          ((df.filter (fun r => decide (r.date = s.cutoff))).map
            (fun r => (r, predict
              (df.filter (fun r2 => decide (r2.date ≤ s.cutoff))) r)))) ∧
      (∀ (i j : ℕ) (si sj : ML.Step), i ≤ j →
        (WFScript.walkforward predict df backDays topN).get? i = some si →
        (WFScript.walkforward predict df backDays topN).get? j = some sj →
        ∀ r ∈ si.trainedOn, r ∈ sj.trainedOn) := by
  intro predict df backDays topN
  have hmain : ∀ s ∈ WFScript.walkforward predict df backDays topN,
      s.trainedOn = df.filter (fun r => decide (r.date ≤ s.cutoff)) ∧
      (∀ r ∈ s.trainedOn, r.date ≤ s.cutoff) ∧
      s.picks = ML.topPicks topN
        ((df.filter (fun r => decide (r.date = s.cutoff))).map
          (fun r => (r, predict
            (df.filter (fun r2 => decide (r2.date ≤ s.cutoff))) r))) := by
    intro s hs
    simp only [WFScript.walkforward, List.mem_map] at hs
    obtain ⟨d, hd, rfl⟩ := hs
    have hdmem : ∃ r ∈ df, r.date = d := by
      have h1 : d ∈ ML.lastDays (backDays + 1) df :=
        (List.dropLast_sublist _).subset hd
      have h2 : d ∈ ML.uniqueDatesSorted df := by
        unfold ML.lastDays at h1
        exact (List.drop_sublist _ _).subset h1
      unfold ML.uniqueDatesSorted at h2
      rw [List.mem_insertionSort, List.mem_dedup, List.mem_map] at h2
      obtain ⟨r, hr, hrd⟩ := h2
      exact ⟨r, hr, hrd⟩
    have htm : WFScript.train_model df d =
        some (df.filter (fun r => decide (r.date ≤ d))) := by
      unfold WFScript.train_model
      rw [if_neg]
      obtain ⟨r, hr, hrd⟩ := hdmem
      exact List.ne_nil_of_mem
        (List.mem_filter.mpr ⟨hr, by simp [hrd]⟩)
    refine ⟨?_, ?_, ?_⟩
    · dsimp only
      rw [htm]
      rfl
    · intro r hr
      dsimp only at hr
      rw [htm] at hr
      have := List.mem_filter.mp hr
      simpa using this.2
    · dsimp only
      rw [htm]
      rfl
  refine ⟨hmain, ?_⟩
  intro i j si sj hij hi hj r hr
  have hsi := hmain si (List.get?_mem hi)
  have hsj := hmain sj (List.get?_mem hj)
  have hcut : si.cutoff ≤ sj.cutoff := by
    unfold WFScript.walkforward at hi hj
    rw [List.get?_map] at hi hj
    obtain ⟨di, hdi, hfi⟩ := Option.map_eq_some'.mp hi
    obtain ⟨dj, hdj, hfj⟩ := Option.map_eq_some'.mp hj
    have hci : si.cutoff = di := by rw [← hfi]
    have hcj : sj.cutoff = dj := by rw [← hfj]
    rw [hci, hcj]
    have hsorted : ((ML.lastDays (backDays + 1) df).dropLast).Sorted
        (· ≤ ·) := by
      have h0 : (ML.uniqueDatesSorted df).Sorted (· ≤ ·) :=
        List.sorted_insertionSort _ _
      have h1 : (ML.lastDays (backDays + 1) df).Sorted (· ≤ ·) :=
        h0.sublist (List.drop_sublist _ _)
      exact h1.sublist (List.dropLast_sublist _)
    obtain ⟨hli, hgi⟩ := List.get?_eq_some.mp hdi
    obtain ⟨hlj, hgj⟩ := List.get?_eq_some.mp hdj
    rw [← hgi, ← hgj]
    exact hsorted.rel_get_of_le (by exact_mod_cast hij)
  rw [hsi.1] at hr
  rw [hsj.1]
  obtain ⟨hrdf, hrle⟩ := List.mem_filter.mp hr
  refine List.mem_filter.mpr ⟨hrdf, ?_⟩
  simp only [decide_eq_true_eq] at hrle ⊢
  exact le_trans hrle hcut

/-- C1 witness: on a concrete five-row frame, the first step of the
re-fitting walk-forward has cutoff `1` and was fitted on exactly the rows
dated at most `1`. -/
theorem C1_fresh_fit_per_cutoff_amended_witness :
    ∃ s ∈ WFScript.walkforward (fun _ _ => 0)
        [⟨"A", 0, 1, none⟩, ⟨"A", 1, 2, none⟩, ⟨"A", 2, 3, none⟩,
         ⟨"A", 3, 4, none⟩, ⟨"A", 50, 5, none⟩] 3 10,
      s.cutoff = 1 ∧
      s.trainedOn =
        [⟨"A", 0, 1, none⟩, ⟨"A", 1, 2, none⟩, ⟨"A", 2, 3, none⟩,
         ⟨"A", 3, 4, none⟩, ⟨"A", 50, 5, none⟩].filter
          (fun r => decide (r.date ≤ s.cutoff)) ∧
      (∀ r ∈ s.trainedOn, r.date ≤ s.cutoff) := by
  have hstep : (WFScript.walkforward (fun _ _ => 0)
      [⟨"A", 0, 1, none⟩, ⟨"A", 1, 2, none⟩, ⟨"A", 2, 3, none⟩,
       ⟨"A", 3, 4, none⟩, ⟨"A", 50, 5, none⟩] 3 10).get? 0 =
      some { cutoff := 1,
             trainedOn := [⟨"A", 0, 1, none⟩, ⟨"A", 1, 2, none⟩],
             picks := [(⟨"A", 1, 2, none⟩, 0)] } := by
    norm_num [WFScript.walkforward, WFScript.train_model, ML.lastDays,
      ML.uniqueDatesSorted, List.insertionSort, List.orderedInsert,
      List.dedup, List.pwFilter, List.filter, ML.topPicks, pandasSortDesc]
    simp
  have hmem : (⟨1, [⟨"A", 0, 1, none⟩, ⟨"A", 1, 2, none⟩],
      [(⟨"A", 1, 2, none⟩, 0)]⟩ : ML.Step) ∈
      WFScript.walkforward (fun _ _ => 0)
        [⟨"A", 0, 1, none⟩, ⟨"A", 1, 2, none⟩, ⟨"A", 2, 3, none⟩,
         ⟨"A", 3, 4, none⟩, ⟨"A", 50, 5, none⟩] 3 10 :=
    List.get?_mem hstep
  have h := (C1_fresh_fit_per_cutoff_amended (fun _ _ => 0)
      [⟨"A", 0, 1, none⟩, ⟨"A", 1, 2, none⟩, ⟨"A", 2, 3, none⟩,
       ⟨"A", 3, 4, none⟩, ⟨"A", 50, 5, none⟩] 3 10).1 _ hmem
  exact ⟨_, hmem, rfl, h.1, h.2.1⟩

/-- C3 counterexample: `fetch_prices` of `src/src/data_fetch.py` takes no
clock and applies no staleness bound.  With a schema-valid, non-empty
cached file whose only (hence most recent) bar is dated day `0` — 100 days
before a nominal "today" of day `100`, far beyond the 3-calendar-day
bound — the function still serves the cache, and its output is identical
whether the external source could have provided data or not (the source is
never consulted). -/
theorem C3_counterexample :
    (DataFetch.fetch_prices
      (some (true, [⟨0, some 1, some 1, some 1, some 1, some 1⟩]))
      none).fromCache = true ∧
    DataFetch.fetch_prices
        (some (true, [⟨0, some 1, some 1, some 1, some 1, some 1⟩]))
        (some [⟨99, some 2, some 2, some 2, some 2, some 2⟩]) =
      DataFetch.fetch_prices
        (some (true, [⟨0, some 1, some 1, some 1, some 1, some 1⟩]))
        none ∧
    ¬ ((100 : ℤ) - 3 ≤ PlanAndSize.maxDate [⟨0, 1⟩]) := by
  refine ⟨rfl, rfl, ?_⟩
  norm_num [PlanAndSize.maxDate]

/-- C3 (amended): `load_cached_or_fetch` of
`trading_project/plan_and_size.py` behaves as the claim says: the cache is
served only when non-empty and at most 3 calendar days stale; otherwise the
call behaves exactly like a cache miss, where the primary source (eodhd)
wins when it returns a non-empty frame (persisted back to cache), the
secondary source (yfinance) is consulted only when the primary fails, its
non-empty result is persisted, and exhaustion of both yields an empty
result with no write.  `fetch_prices` of `src/src/data_fetch.py`, by
contrast, serves any parseable, schema-valid, non-empty cache regardless
of age (last conjunct; see the counterexample) and consults only a single
external source. -/
theorem C3_cache_policy_amended :
    (∀ (df : List PlanAndSize.DFRow) (today : ℤ)
        (e y : Option (List PlanAndSize.DFRow)),
      df ≠ [] → today - 3 ≤ PlanAndSize.maxDate df →
      PlanAndSize.load_cached_or_fetch (some df) today e y =
        (some df, false)) ∧
    (∀ (df : List PlanAndSize.DFRow) (today : ℤ)
        (e y : Option (List PlanAndSize.DFRow)),
      ¬ (df ≠ [] ∧ today - 3 ≤ PlanAndSize.maxDate df) →
      PlanAndSize.load_cached_or_fetch (some df) today e y =
        PlanAndSize.load_cached_or_fetch none today e y) ∧
    (∀ (today : ℤ) (d : List PlanAndSize.DFRow)
        (y : Option (List PlanAndSize.DFRow)), d ≠ [] →
      PlanAndSize.load_cached_or_fetch none today (some d) y =
        (some d, true)) ∧
    (∀ (today : ℤ) (d : List PlanAndSize.DFRow), d ≠ [] →
      PlanAndSize.load_cached_or_fetch none today none (some d) =
        (some d, true)) ∧
    (∀ today : ℤ,
      PlanAndSize.load_cached_or_fetch none today none none =
        (none, false)) ∧
    (∀ (rows : List Features.BarRaw) (y : Option (List Features.BarRaw)),
      rows ≠ [] →
      (DataFetch.fetch_prices (some (true, rows)) y).fromCache = true) := by
  refine ⟨?_, ?_, ?_, ?_, ?_, ?_⟩
  · intro df today e y h1 h2
    simp only [PlanAndSize.load_cached_or_fetch]
    rw [if_pos ⟨h1, h2⟩]
  · intro df today e y h
    simp only [PlanAndSize.load_cached_or_fetch]
    rw [if_neg h]
  · intro today d y h
    simp only [PlanAndSize.load_cached_or_fetch]
    rw [if_neg (by simpa using h)]
  · intro today d h
    simp only [PlanAndSize.load_cached_or_fetch]
    rw [if_neg (by simpa using h)]
  · intro today
    rfl
  · intro rows y h
    simp only [DataFetch.fetch_prices]
    rw [if_pos ⟨h, trivial⟩]

/-- C3 witness: the amended cache policy at concrete inputs — a fresh
one-bar cache is served; a stale cache falls through to the primary
source, whose non-empty result is persisted. -/
theorem C3_cache_policy_amended_witness :
    (([⟨99, 1⟩] : List PlanAndSize.DFRow) ≠ [] ∧
      (100 : ℤ) - 3 ≤ PlanAndSize.maxDate [⟨99, 1⟩] ∧
      PlanAndSize.load_cached_or_fetch (some [⟨99, 1⟩]) 100
        (some [⟨98, 2⟩]) none = (some [⟨99, 1⟩], false)) ∧
    (¬ (([⟨0, 1⟩] : List PlanAndSize.DFRow) ≠ [] ∧
        (100 : ℤ) - 3 ≤ PlanAndSize.maxDate [⟨0, 1⟩]) ∧
      PlanAndSize.load_cached_or_fetch (some [⟨0, 1⟩]) 100
        (some [⟨98, 2⟩]) none =
        PlanAndSize.load_cached_or_fetch none 100 (some [⟨98, 2⟩]) none ∧
      PlanAndSize.load_cached_or_fetch none 100 (some [⟨98, 2⟩]) none =
        (some [⟨98, 2⟩], true)) := by
  have hfresh : (100 : ℤ) - 3 ≤ PlanAndSize.maxDate [⟨99, 1⟩] := by
    norm_num [PlanAndSize.maxDate]
  have hstale : ¬ (([⟨0, 1⟩] : List PlanAndSize.DFRow) ≠ [] ∧
      (100 : ℤ) - 3 ≤ PlanAndSize.maxDate [⟨0, 1⟩]) := by
    norm_num [PlanAndSize.maxDate]
  exact ⟨⟨by simp, hfresh,
      C3_cache_policy_amended.1 [⟨99, 1⟩] 100 (some [⟨98, 2⟩]) none
        (by simp) hfresh⟩,
    hstale,
    C3_cache_policy_amended.2.1 [⟨0, 1⟩] 100 (some [⟨98, 2⟩]) none hstale,
    C3_cache_policy_amended.2.2.1 100 [⟨98, 2⟩] none (by simp)⟩

/-- C2 (statement): every row emitted by `add_features` at coerced-frame
position `i` has a successor row in the coerced frame (rows whose next bar
is unavailable are dropped — in particular the final row never survives),
and its label is `1` exactly when the close of that next available bar
exceeds its own close (first conjunct); and the label depends on no bar
other than those at `t` and `t + 1`: any two coerced frames agreeing on the
closes at positions `i` and `i + 1` yield identical labels for row `i`,
whatever their other bars are (second conjunct). -/
theorem C2_label_from_next_bar :
    (∀ (bs : List Features.BarRaw) (i : ℕ) (r : Features.FeatRow),
      (i, r) ∈ Features.add_features_idx bs →
      i + 1 < (Features.coerceBars bs).length ∧
      ∃ b b', (Features.coerceBars bs).get? i = some b ∧
        (Features.coerceBars bs).get? (i + 1) = some b' ∧
        r.y = if b.close < b'.close then 1 else 0) ∧
    (∀ (p q : List Features.CBar) (i : ℕ)
        (rp rq : Features.FeatRow),
      Features.featAt p i = some rp → Features.featAt q i = some rq →
      Features.closeAt p i = Features.closeAt q i →
      Features.closeAt p (i + 1) = Features.closeAt q (i + 1) →
      rp.y = rq.y) := by
  have hchain : ∀ (p : List Features.CBar) (i : ℕ) (r : Features.FeatRow),
      Features.featAt p i = some r →
      ∃ b nc, p.get? i = some b ∧ Features.closeAt p (i + 1) = some nc ∧
        r.y = if b.close < nc then 1 else 0 := by
    intro p i r h
    rw [Features.featAt, Option.bind_eq_some] at h
    obtain ⟨b, hb, h⟩ := h
    rw [Option.bind_eq_some] at h
    obtain ⟨o, ho, h⟩ := h
    rw [Option.bind_eq_some] at h
    obtain ⟨hv, hhv, h⟩ := h
    rw [Option.bind_eq_some] at h
    obtain ⟨lo, hlo, h⟩ := h
    rw [Option.bind_eq_some] at h
    obtain ⟨r1, hr1, h⟩ := h
    rw [Option.bind_eq_some] at h
    obtain ⟨r5, hr5, h⟩ := h
    rw [Option.bind_eq_some] at h
    obtain ⟨m5, hm5, h⟩ := h
    rw [Option.bind_eq_some] at h
    obtain ⟨m10, hm10, h⟩ := h
    rw [Option.bind_eq_some] at h
    obtain ⟨m20, hm20, h⟩ := h
    rw [Option.bind_eq_some] at h
    obtain ⟨s20, hs20, h⟩ := h
    rw [Option.bind_eq_some] at h
    obtain ⟨v20r, hv20, h⟩ := h
    rw [Option.bind_eq_some] at h
    obtain ⟨rsi, hrsi, h⟩ := h
    rw [Option.bind_eq_some] at h
    obtain ⟨nc, hnc, h⟩ := h
    rw [Option.bind_eq_some] at h
    obtain ⟨vm20, hvm20, h⟩ := h
    rw [Option.some.injEq] at h
    exact ⟨b, nc, hb, hnc, by rw [← h]⟩
  constructor
  · intro bs i r hmem
    simp only [Features.add_features_idx, List.mem_filterMap,
      List.mem_range, Option.map_eq_some'] at hmem
    obtain ⟨a, ha, r0, hf, heq⟩ := hmem
    obtain ⟨rfl, rfl⟩ : a = i ∧ r0 = r := by
      constructor <;> [exact congrArg Prod.fst heq; exact congrArg Prod.snd heq]
    obtain ⟨b, nc, hb, hnc, hy⟩ := hchain _ _ _ hf
    obtain ⟨b2, hb2, hcb2⟩ := Option.map_eq_some'.mp hnc
    obtain ⟨hlt, -⟩ := List.get?_eq_some.mp hb2
    refine ⟨hlt, b, b2, hb, hb2, ?_⟩
    rw [hy, hcb2]
  · intro p q i rp rq hp hq hci hcn
    obtain ⟨bp, ncp, hbp, hncp, hyp⟩ := hchain p i rp hp
    obtain ⟨bq, ncq, hbq, hncq, hyq⟩ := hchain q i rq hq
    have hc1 : bp.close = bq.close := by
      have h1 : Features.closeAt p i = some bp.close := by
        unfold Features.closeAt
        rw [hbp]
        rfl
      have h2 : Features.closeAt q i = some bq.close := by
        unfold Features.closeAt
        rw [hbq]
        rfl
      rw [h1, h2] at hci
      exact Option.some.inj hci
    have hc2 : ncp = ncq := by
      rw [hncp, hncq] at hcn
      exact Option.some.inj hcn
    rw [hyp, hyq, hc1, hc2]

/-- C2 witness: on a 22-bar series the row at position 20 (the one
full-lookback row with a successor) is emitted, its label reads the bar at
position 21, and equals `1` because that next close (`2`) exceeds its own
close (`1`). -/
theorem C2_label_from_next_bar_witness :
    ∃ r : Features.FeatRow,
      (20, r) ∈ Features.add_features_idx
        (List.replicate 21 ⟨0, some 1, some 1, some 1, some 1, some 1⟩ ++
          [⟨0, some 1, some 1, some 1, some 2, some 1⟩]) ∧
      20 + 1 < (Features.coerceBars
        (List.replicate 21 ⟨0, some 1, some 1, some 1, some 1, some 1⟩ ++
          [⟨0, some 1, some 1, some 1, some 2, some 1⟩])).length ∧
      (∃ b b', (Features.coerceBars
          (List.replicate 21 ⟨0, some 1, some 1, some 1, some 1, some 1⟩ ++
            [⟨0, some 1, some 1, some 1, some 2, some 1⟩])).get? 20 =
          some b ∧
        (Features.coerceBars
          (List.replicate 21 ⟨0, some 1, some 1, some 1, some 1, some 1⟩ ++
            [⟨0, some 1, some 1, some 1, some 2, some 1⟩])).get? (20 + 1) =
          some b' ∧
        r.y = if b.close < b'.close then 1 else 0) ∧
      r.y = 1 := by
  have hr20 : List.range 20 =
      [0, 1, 2, 3, 4, 5, 6, 7, 8, 9, 10, 11, 12, 13, 14, 15, 16, 17, 18,
       19] := by decide
  have hr14 : List.range 14 =
      [0, 1, 2, 3, 4, 5, 6, 7, 8, 9, 10, 11, 12, 13] := by decide
  have hfeat : Features.featAt (Features.coerceBars
      (List.replicate 21 ⟨0, some 1, some 1, some 1, some 1, some 1⟩ ++
        [⟨0, some 1, some 1, some 1, some 2, some 1⟩])) 20 =
      some ⟨0, 1, 1, 1, 1, 1, 0, 0, 1, 1, 1, 0, 0, 0, 2, 1, 1⟩ := by
    norm_num [Features.featAt, Features.coerceBars, Features.closeAt,
      Features.pctChange, Features.window, Features.rollMean,
      Features.rollVarSq, Features.rollRetVarSq, Features.rsi14At,
      meanQ, sumQ, sampleVarQ, List.filterMap, hr20, hr14,
      List.sum_cons, List.sum_nil, Option.bind]
  have hmem : ((20, ⟨0, 1, 1, 1, 1, 1, 0, 0, 1, 1, 1, 0, 0, 0, 2, 1, 1⟩) :
      ℕ × Features.FeatRow) ∈
      Features.add_features_idx
        (List.replicate 21 ⟨0, some 1, some 1, some 1, some 1, some 1⟩ ++
          [⟨0, some 1, some 1, some 1, some 2, some 1⟩]) := by
    refine List.mem_filterMap.mpr ⟨20, ?_, ?_⟩
    · refine List.mem_range.mpr ?_
      norm_num [Features.coerceBars, List.filterMap]
    · rw [hfeat]
      rfl
  have h := (C2_label_from_next_bar.1 _ 20 _ hmem)
  exact ⟨_, hmem, h.1, h.2, rfl⟩
